import Mathlib

/-!
Verification of the disk-analyzer core (src/disk_analyzer/scanner.py and the
duplicate detector described in the specification) against its
natural-language specification.

The filesystem is modelled as an inductive tree of entries; I/O failures
(unreadable directories, failing `stat` calls, errors raised while an entry
is classified) are part of the tree, so the scanner embedding is a total
function.  Machine integers are `Nat` (sizes are non-negative and Python
integers are unbounded); fallible operations return `Option`/`Except`.

Not modelled (no claim depends on them): `mtime` (a floating-point
timestamp), the progress callback (the source only reads counters inside
it and never alters scan state), the `threading.Lock` (the scanner in the
source runs single-threaded), and `os.path.abspath`/`expanduser`
normalisation of the root path (the embedding receives the already
normalised path string).
-/

namespace DiskAnalyzer

/-- `startChars pat s`: `pat` occurs at the start of `s` (over char lists). -/
def startChars : List Char → List Char → Bool
  | [], _ => true
  | _ :: _, [] => false
  | a :: as, b :: bs => a == b && startChars as bs

/-- Python's substring test `pat in s`, over char lists. -/
def containsChars : List Char → List Char → Bool
  | pat, [] => pat.isEmpty
  | pat, c :: rest => startChars pat (c :: rest) || containsChars pat rest

/-- `endsChars suffix s`: `suffix` occurs at the end of `s`. -/
def endsChars (suffix s : List Char) : Bool :=
  startChars suffix.reverse s.reverse

/-- Python `str.upper()` (the inputs of interest are ASCII, where
`Char.toUpper` agrees with Python). -/
def toUpperChars (cs : List Char) : List Char :=
  cs.map Char.toUpper

/-- Python `str.strip()`: drop leading and trailing whitespace. -/
def trimChars (cs : List Char) : List Char :=
  ((cs.dropWhile Char.isWhitespace).reverse.dropWhile Char.isWhitespace).reverse

/-- Numeric value of a digit string (most significant first). -/
def digitsVal (cs : List Char) : Nat :=
  cs.foldl (fun a c => a * 10 + (c.toNat - 48)) 0

def allDigits (cs : List Char) : Bool :=
  cs.all (fun c => c.isDigit)

/-- Split a char list at every `'.'` (Python `s.split('.')`, used to model
the shape of float literals). -/
def splitOnDot : List Char → List (List Char)
  | [] => [[]]
  | c :: rest =>
      match splitOnDot rest with
      | [] => [[]]
      | g :: gs => if c = '.' then [] :: g :: gs else (c :: g) :: gs

/-- Python `float(s)` restricted to the inputs `parse_size` can produce:
non-negative decimal literals `digits`, `digits.digits`, `.digits` or
`digits.` (at least one digit overall).  Other `float` spellings (signs,
exponents, `inf`/`nan`) are irrelevant to size strings and map to `none`. -/
def parseFloat (cs : List Char) : Option ℚ :=
  match splitOnDot cs with
  | [a] =>
      if !a.isEmpty && allDigits a then some ((digitsVal a : ℚ)) else none
  | [a, b] =>
      if (!a.isEmpty || !b.isEmpty) && allDigits a && allDigits b then
        some ((digitsVal a : ℚ) + (digitsVal b : ℚ) / (10 : ℚ) ^ b.length)
      else none
  | _ => none

/-- Python `int(s)` on a stripped string, restricted to non-negative digit
strings (sign/underscore spellings are irrelevant to size strings). -/
def pyInt (cs : List Char) : Option Nat :=
  if !cs.isEmpty && allDigits cs then some (digitsVal cs) else none

/-- The `units` dict of `parse_size`, in Python insertion (iteration) order. -/
def sizeUnits : List (String × Nat) :=
  [("B", 1), ("KB", 1024), ("MB", 1024 ^ 2), ("GB", 1024 ^ 3), ("TB", 1024 ^ 4)]

/-- First unit (in dict order) whose text is a suffix of `t`; mirrors the
`for unit, multiplier in units.items()` loop with its early `return`. -/
def findUnit : List (String × Nat) → List Char → Option (String × Nat)
  | [], _ => none
  | (u, m) :: rest, t => if endsChars u.data t then some (u, m) else findUnit rest t

/-- Embedding of `parse_size` (scanner.py lines 250-268).  A raised
`ValueError` is `none`; `int(float(number) * multiplier)` truncates the
non-negative product, i.e. takes its floor. -/
def parse_size (s : String) : Option Nat :=
  let t := toUpperChars (trimChars s.data)
  match findUnit sizeUnits t with
  | some (u, mult) =>
      (parseFloat (trimChars (t.take (t.length - u.length)))).map
        fun q => (q * (mult : ℚ)).floor.toNat
  | none => pyInt t

/-! ## The filesystem model

A directory entry as `os.scandir` yields it.  I/O failures are data:
`unreadableDir` is a directory whose own `os.scandir` raises,
`file _ _ true` is a file whose `entry.stat` raises, and `badEntry` is an
entry for which classification (`is_symlink`/`is_file`/`is_dir`) raises;
the error kind distinguishes `PermissionError` from other `OSError`s.
A symlink stores its fully resolved referent (`OptEntry.none` for a broken
link); symlink chains are collapsed into that referent. -/

inductive ScanError where
  | permDenied
  | osErr (msg : String)

mutual
inductive FSEntry where
  | file (name : String) (size : Nat) (statFails : Bool)
  | dir (name : String) (entries : FSList)
  | unreadableDir (name : String) (err : ScanError)
  | symlink (name : String) (target : OptEntry)
  | badEntry (name : String) (err : ScanError)
inductive FSList where
  | nil
  | cons (e : FSEntry) (rest : FSList)
inductive OptEntry where
  | none
  | some (e : FSEntry)
end

def FSEntry.name : FSEntry → String
  | .file n _ _ => n
  | .dir n _ => n
  | .unreadableDir n _ => n
  | .symlink n _ => n
  | .badEntry n _ => n

/-! ## The scanner's data model (scanner.py lines 15-53) -/

/-- `FileInfo` (scanner.py lines 15-25).  The `mtime` field (a float
timestamp) is not modelled; no claim mentions it. -/
structure FileInfo where
  path : String
  size : Nat
  extension : String
deriving DecidableEq, Repr

/-! `DirInfo` (scanner.py lines 28-41).  `subdirs` is the `Dict[str, DirInfo]`
in insertion order (`SubdirList.cons name node rest`). -/
mutual
inductive DirInfo where
  | mk (path : String) (total_size : Nat) (file_count : Nat) (dir_count : Nat)
       (files : List FileInfo) (subdirs : SubdirList) (error : Option String)
inductive SubdirList where
  | nil
  | cons (name : String) (d : DirInfo) (rest : SubdirList)
end

def DirInfo.path : DirInfo → String
  | .mk p _ _ _ _ _ _ => p

def DirInfo.total_size : DirInfo → Nat
  | .mk _ t _ _ _ _ _ => t

def DirInfo.file_count : DirInfo → Nat
  | .mk _ _ fc _ _ _ _ => fc

def DirInfo.dir_count : DirInfo → Nat
  | .mk _ _ _ dc _ _ _ => dc

def DirInfo.files : DirInfo → List FileInfo
  | .mk _ _ _ _ fs _ _ => fs

def DirInfo.subdirs : DirInfo → SubdirList
  | .mk _ _ _ _ _ sd _ => sd

def DirInfo.error : DirInfo → Option String
  | .mk _ _ _ _ _ _ e => e

instance : Inhabited DirInfo := ⟨.mk "" 0 0 0 [] .nil none⟩

/-- The mutable per-scan state: `result.errors`, `result.all_files`,
`result.all_dirs` and the `_files_scanned`/`_dirs_scanned` counters.
The `threading.Lock` around the counters is irrelevant here: the scanner
in the source runs single-threaded. -/
structure ScanState where
  errors : List String
  all_files : List FileInfo
  all_dirs : List DirInfo
  files_scanned : Nat
  dirs_scanned : Nat

/-- `ScanResult` (scanner.py lines 44-53). -/
structure ScanResult where
  root : DirInfo
  total_size : Nat
  total_files : Nat
  total_dirs : Nat
  errors : List String
  all_files : List FileInfo
  all_dirs : List DirInfo
deriving Inhabited

/-! ## Scanner configuration (DiskScanner.__init__, lines 75-104) -/

structure Config where
  excludePatterns : List String
  minSize : Nat
  maxDepth : Option Nat
  followSymlinks : Bool

/-- `DiskScanner.DEFAULT_EXCLUDES` (lines 60-73).  A Python `set`; only
membership and an existential over it are consumed, so a list models it. -/
def defaultExcludes : List String :=
  [".Spotlight-V100", ".fseventsd", ".Trashes", ".DocumentRevisions-V100",
   ".TemporaryItems", ".vol", "System/Volumes/Data/.Spotlight-V100",
   "Library/Mobile Documents", "iCloud Drive", "CloudStorage", ".iCloud"]

/-- `DiskScanner.__init__`: the caller's patterns are merged into the
built-in defaults.  `max_depth` is a non-negative depth or `none`
(the CLI's type is `int`; negative depths are degenerate and unused). -/
def mkScanner (excludePatterns : Option (List String)) (minSize : Nat)
    (maxDepth : Option Nat) (followSymlinks : Bool) : Config :=
  ⟨defaultExcludes ++ excludePatterns.getD [], minSize, maxDepth, followSymlinks⟩

/-- `DiskScanner._should_exclude` (lines 143-150): exact base-name match
against the pattern set, or any pattern occurring as a substring of the
full path. -/
def shouldExclude (pats : List String) (path name : String) : Bool :=
  pats.contains name || pats.any fun pat => containsChars pat.data path.data

/-- `os.scandir` entry paths: `os.path.join(parent, name)`. -/
def childPath (parent name : String) : String :=
  if endsChars ['/'] parent.data then parent ++ name else parent ++ "/" ++ name

/-- The `depth > self.max_depth` guard of `_scan_directory` (line 154). -/
def depthExceeded (cfg : Config) (depth : Nat) : Bool :=
  match cfg.maxDepth with
  | none => false
  | some m => decide (m < depth)

/-! ## Small helpers for the walker -/

/-- `os.path.splitext(name)[1]`: the suffix from the last dot, empty when
there is no dot or only leading dots precede it. -/
def splitextExt (name : String) : String :=
  let cs := name.data
  match ((List.range cs.length).filter fun i => cs.getD i ' ' = '.').getLast? with
  | none => ""
  | some i => if (cs.take i).any (fun c => c ≠ '.') then ⟨cs.drop i⟩ else ""

/-- `_process_file` lines 201-202: lowercased extension or the sentinel. -/
def extOf (name : String) : String :=
  let e := splitextExt name
  if e = "" then "(无扩展名)" else ⟨e.data.map Char.toLower⟩

/-- Error-log message for a failed entry or directory access
(lines 174-177 and 179-184 use the same two formats). -/
def entryErrMsg (path : String) : ScanError → String
  | .permDenied => "权限被拒绝: " ++ path
  | .osErr m => "访问错误 " ++ path ++ ": " ++ m

/-- The `dir_info.error` marker text (lines 180 and 183). -/
def dirErrText : ScanError → String
  | .permDenied => "权限被拒绝"
  | .osErr m => m

def freshDir (p : String) : DirInfo := .mk p 0 0 0 [] .nil none

def markErr (d : DirInfo) (err : ScanError) : DirInfo :=
  match d with
  | .mk p t fc dc fs sd _ => .mk p t fc dc fs sd (some (dirErrText err))

/-- Python dict assignment `subdirs[name] = node`: replace in place if the
key exists, else append. -/
def dictInsert : SubdirList → String → DirInfo → SubdirList
  | .nil, k, v => .cons k v .nil
  | .cons k' v' rest, k, v =>
      if k' = k then .cons k v rest else .cons k' v' (dictInsert rest k v)

/-- `_process_file` lines 211-213: record a file in its directory node. -/
def addFile (d : DirInfo) (fi : FileInfo) : DirInfo :=
  match d with
  | .mk p t fc dc fs sd e => .mk p (t + fi.size) (fc + 1) dc (fs ++ [fi]) sd e

/-- `_process_directory` lines 231-233: fold a finished subdirectory into
its parent. -/
def addSubdir (d : DirInfo) (n : String) (sub : DirInfo) : DirInfo :=
  match d with
  | .mk p t fc dc fs sd e =>
      .mk p (t + sub.total_size) fc (dc + 1) fs (dictInsert sd n sub) e

def pushErr (st : ScanState) (m : String) : ScanState :=
  { st with errors := st.errors ++ [m] }

/-- `_process_file` lines 215-218. -/
def recordFile (st : ScanState) (fi : FileInfo) : ScanState :=
  { st with all_files := st.all_files ++ [fi],
            files_scanned := st.files_scanned + 1 }

/-- `_process_directory` lines 235-238. -/
def recordDir (st : ScanState) (d : DirInfo) : ScanState :=
  { st with all_dirs := st.all_dirs ++ [d],
            dirs_scanned := st.dirs_scanned + 1 }

/-- `DiskScanner._process_file` (lines 190-221).  A raised `OSError`/
`IOError` from `entry.stat` is caught by the bare `pass`: the entry is
skipped silently, with no error-log message. -/
def processFile (cfg : Config) (path name : String) (size : Nat)
    (statFails : Bool) (d : DirInfo) (st : ScanState) : DirInfo × ScanState :=
  if statFails then (d, st)
  else if size < cfg.minSize then (d, st)
  else
    let fi : FileInfo := ⟨path, size, extOf name⟩
    (addFile d fi, recordFile st fi)

/-! ## The recursive walker

`scanEntries` is the `for entry in entries` loop of `_scan_directory`
(lines 157-177); `scanEntry` is one loop iteration, with
`_process_directory` (lines 223-238) and the body of `_scan_directory`
for the subdirectory (depth guard, `os.scandir` failure handling) inlined
at the recursive call. -/

mutual
def scanEntries (cfg : Config) (es : FSList) (d : DirInfo) (depth : Nat)
    (st : ScanState) : DirInfo × ScanState :=
  match es with
  | .nil => (d, st)
  | .cons e rest =>
      let r := scanEntry cfg e d depth st
      scanEntries cfg rest r.1 depth r.2

def scanEntry (cfg : Config) (e : FSEntry) (d : DirInfo) (depth : Nat)
    (st : ScanState) : DirInfo × ScanState :=
  let path := childPath d.path e.name
  if shouldExclude cfg.excludePatterns path e.name then (d, st)
  else
    match e with
    | .badEntry _ err => (d, pushErr st (entryErrMsg path err))
    | .file _ sz sf => processFile cfg path e.name sz sf d st
    | .dir _ es =>
        let sr :=
          if depthExceeded cfg (depth + 1) then (freshDir path, st)
          else scanEntries cfg es (freshDir path) (depth + 1) st
        (addSubdir d e.name sr.1, recordDir sr.2 sr.1)
    | .unreadableDir _ err =>
        let sr :=
          if depthExceeded cfg (depth + 1) then (freshDir path, st)
          else (markErr (freshDir path) err, pushErr st (entryErrMsg path err))
        (addSubdir d e.name sr.1, recordDir sr.2 sr.1)
    | .symlink _ t =>
        if !cfg.followSymlinks then (d, st)
        else
          match t with
          | .some (.file _ sz sf) => processFile cfg path e.name sz sf d st
          | .some (.dir _ es) =>
              let sr :=
                if depthExceeded cfg (depth + 1) then (freshDir path, st)
                else scanEntries cfg es (freshDir path) (depth + 1) st
              (addSubdir d e.name sr.1, recordDir sr.2 sr.1)
          | .some (.unreadableDir _ err) =>
              let sr :=
                if depthExceeded cfg (depth + 1) then (freshDir path, st)
                else (markErr (freshDir path) err, pushErr st (entryErrMsg path err))
              (addSubdir d e.name sr.1, recordDir sr.2 sr.1)
          | _ => (d, st)
end

/-! ## Root handling (`DiskScanner.scan`, lines 106-141) -/

/-- `os.path` functions follow symlinks when inspecting the root. -/
def resolve : FSEntry → Option FSEntry
  | .symlink _ OptEntry.none => none
  | .symlink _ (OptEntry.some t) => resolve t
  | e => some e

/-- `os.path.exists` (follows symlinks; a broken link does not exist). -/
def pathExists : Option FSEntry → Bool
  | none => false
  | some e => (resolve e).isSome

/-- `os.path.isdir` (follows symlinks; true also for a directory whose
listing will later fail — `isdir` only stats). -/
def pathIsDir : Option FSEntry → Bool
  | none => false
  | some e =>
      match resolve e with
      | some (.dir _ _) => true
      | some (.unreadableDir _ _) => true
      | _ => false

/-- The root's `os.scandir` outcome (only meaningful under `pathIsDir`). -/
def rootListing : Option FSEntry → Except ScanError FSList
  | none => .ok .nil
  | some e =>
      match resolve e with
      | some (.dir _ es) => .ok es
      | some (.unreadableDir _ err) => .error err
      | _ => .ok .nil

/-- The `self._scan_directory(result.root, 0, result)` call of `scan`
(lines 130-134): the root node starts fresh, and the body of
`_scan_directory` runs at depth 0 on the root's listing (depth guard,
`os.scandir` failure handling, then the entry loop). -/
def scanCore (cfg : Config) (rootPath : String) (root : Option FSEntry) :
    DirInfo × ScanState :=
  if depthExceeded cfg 0 then (freshDir rootPath, ⟨[], [], [], 0, 0⟩)
  else
    match rootListing root with
    | .ok es => scanEntries cfg es (freshDir rootPath) 0 ⟨[], [], [], 0, 0⟩
    | .error err =>
        (markErr (freshDir rootPath) err,
         pushErr ⟨[], [], [], 0, 0⟩ (entryErrMsg rootPath err))

/-- `DiskScanner.scan` (lines 106-141).  The two `raise ValueError` sites
become `Except.error`; the root path is received already normalised
(`os.path.abspath(os.path.expanduser(...))` is environment-dependent). -/
def DiskScanner.scan (cfg : Config) (rootPath : String) (root : Option FSEntry) :
    Except String ScanResult :=
  if pathExists root = false then .error ("路径不存在: " ++ rootPath)
  else if pathIsDir root = false then .error ("不是目录: " ++ rootPath)
  else
    .ok ⟨(scanCore cfg rootPath root).1, (scanCore cfg rootPath root).1.total_size,
         (scanCore cfg rootPath root).2.files_scanned,
         (scanCore cfg rootPath root).2.dirs_scanned,
         (scanCore cfg rootPath root).2.errors,
         (scanCore cfg rootPath root).2.all_files,
         (scanCore cfg rootPath root).2.all_dirs⟩

/-- The result of a scan whose preconditions hold (for concrete witnesses). -/
def scanned (cfg : Config) (rootPath : String) (root : FSEntry) : ScanResult :=
  (DiskScanner.scan cfg rootPath (some root)).toOption.getD default

/-! ## Predicates on model filesystems -/

def namesOf : FSList → List String
  | .nil => []
  | .cons e r => e.name :: namesOf r

def nodupStr : List String → Bool
  | [] => true
  | s :: r => !r.contains s && nodupStr r

/-! `wfB`: a realisable filesystem — the entries of any one directory have
pairwise distinct names (as `os.scandir` guarantees). -/
mutual
def wfB : FSEntry → Bool
  | .file _ _ _ => true
  | .dir _ es => nodupStr (namesOf es) && wfL es
  | .unreadableDir _ _ => true
  | .symlink _ OptEntry.none => true
  | .symlink _ (OptEntry.some t) => wfB t
  | .badEntry _ _ => true
def wfL : FSList → Bool
  | .nil => true
  | .cons e r => wfB e && wfL r
end

/-! `cleanB`: an error-free tree of plain files and directories (no
symlinks, no unreadable directories, no failing stats, no entries whose
classification raises) — the "synthetic tree" of the specification's
testable properties. -/
mutual
def cleanB : FSEntry → Bool
  | .file _ _ sf => !sf
  | .dir _ es => cleanL es
  | _ => false
def cleanL : FSList → Bool
  | .nil => true
  | .cons e r => cleanB e && cleanL r
end

/-! `noExclL pats parent es`: no entry anywhere in the tree (paths built
exactly as the walker builds them) matches the exclusion patterns. -/
mutual
def noExclB (pats : List String) (parent : String) : FSEntry → Bool
  | .dir n es =>
      !shouldExclude pats (childPath parent n) n &&
        noExclL pats (childPath parent n) es
  | e => !shouldExclude pats (childPath parent e.name) e.name
def noExclL (pats : List String) (parent : String) : FSList → Bool
  | .nil => true
  | .cons e r => noExclB pats parent e && noExclL pats parent r
end

/-! `totalBytes`: the sum of the sizes of every plain file in the tree. -/
mutual
def totalBytes : FSEntry → Nat
  | .file _ sz _ => sz
  | .dir _ es => totalBytesL es
  | _ => 0
def totalBytesL : FSList → Nat
  | .nil => 0
  | .cons e r => totalBytes e + totalBytesL r
end

/-! ## Predicates and views on result trees -/

def keys : SubdirList → List String
  | .nil => []
  | .cons k _ r => k :: keys r

def scat : SubdirList → SubdirList → SubdirList
  | .nil, t => t
  | .cons k d r, t => .cons k d (scat r t)

def sumFiles : List FileInfo → Nat
  | [] => 0
  | f :: r => f.size + sumFiles r

def sumSubs : SubdirList → Nat
  | .nil => 0
  | .cons _ d r => d.total_size + sumSubs r

/-! `allInvB`: every node of a result tree satisfies the `total_size`
invariant — its total equals the sum of its own files' sizes plus the
totals of its recorded children. -/
mutual
def allInvB : DirInfo → Bool
  | .mk _ t _ _ fs subs _ => (t == sumFiles fs + sumSubs subs) && subsInvB subs
def subsInvB : SubdirList → Bool
  | .nil => true
  | .cons _ d r => allInvB d && subsInvB r
end

/-! `treeMinOK m`: every file recorded anywhere in a result tree has size
at least `m`. -/
mutual
def treeMinOK (m : Nat) : DirInfo → Bool
  | .mk _ _ _ _ fs subs _ => fs.all (fun f => decide (m ≤ f.size)) && subsMinOK m subs
def subsMinOK (m : Nat) : SubdirList → Bool
  | .nil => true
  | .cons _ d r => treeMinOK m d && subsMinOK m r
end

/-! `postTree`: the non-root nodes of a result tree in the order
`_process_directory` appends them to `result.all_dirs` (children of one
node in insertion order, each preceded by its own descendants). -/
mutual
def postTree : DirInfo → List DirInfo
  | .mk _ _ _ _ _ subs _ => postSubs subs
def postSubs : SubdirList → List DirInfo
  | .nil => []
  | .cons _ d r => (postTree d ++ [d]) ++ postSubs r
end

/-! `treeFiles`: every `FileInfo` recorded in a result tree (own files
first, then the subtrees in insertion order). -/
mutual
def treeFiles : DirInfo → List FileInfo
  | .mk _ _ _ _ fs subs _ => fs ++ subFiles subs
def subFiles : SubdirList → List FileInfo
  | .nil => []
  | .cons _ d r => treeFiles d ++ subFiles r
end

/-! ## The duplicate detector

Modelled from the spec: the class `DuplicateFinder` (with its
`find_duplicates` method) is imported by `src/main.py` from
`disk_analyzer.scanner` but its definition is missing from `src/`; the
model below follows §4.4 of the specification word for word.  Hashes are
abstracted as oracle functions `FileInfo → Option Nat` (`none` = the read
failed and the file is dropped from consideration at that stage). -/

/-- Modelled from the spec: `DuplicateGroup` — signature (the full hash),
the common file size, the members, and the derived wasted-space value. -/
structure DupGroup where
  signature : Nat
  size : Nat
  files : List FileInfo
  wasted : Nat
deriving DecidableEq, Repr

def insertDistinct (l : List Nat) (k : Nat) : List Nat :=
  if l.contains k then l else l ++ [k]

/-- Key values in first-occurrence order (deterministic grouping). -/
def firstKeys (ks : List Nat) : List Nat :=
  ks.foldl insertDistinct []

/-- Partition a file list by a fallible key; files whose key computation
fails belong to no group. -/
def groupsBy (key : FileInfo → Option Nat) (l : List FileInfo) :
    List (Nat × List FileInfo) :=
  (firstKeys (l.filterMap key)).map fun k => (k, l.filter fun f => key f == some k)

/-- Discard singleton groups (spec stages 1-3: "singleton subgroups are
discarded" / "any group of size 1 is discarded"). -/
def survivors (gs : List (Nat × List FileInfo)) : List (Nat × List FileInfo) :=
  gs.filter fun p => decide (2 ≤ p.2.length)

/-- Descending wasted-space order. -/
def dgBefore (a b : DupGroup) : Bool :=
  decide (b.wasted ≤ a.wasted)

def insSorted (g : DupGroup) : List DupGroup → List DupGroup
  | [] => [g]
  | h :: t => if dgBefore g h then g :: h :: t else h :: insSorted g t

/-- Stable sort by descending wasted space. -/
def sortGroups (l : List DupGroup) : List DupGroup :=
  l.foldr insSorted []

/-- Modelled from the spec: `findDuplicates(files, config)` — three
narrowing stages (size → partial hash → full hash), emitting the
subgroups of two or more members as `DuplicateGroup`s, sorted by
descending wasted space. -/
def findDuplicates (partialHash fullHash : FileInfo → Option Nat)
    (minSize : Nat) (files : List FileInfo) : List DupGroup :=
  let stage1 := survivors (groupsBy (fun f => some f.size)
    (files.filter fun f => decide (minSize ≤ f.size)))
  let stage2 := stage1.flatMap fun p => survivors (groupsBy partialHash p.2)
  let stage3 := stage2.flatMap fun p => survivors (groupsBy fullHash p.2)
  sortGroups (stage3.map fun p =>
    let sz := (p.2.head?.map FileInfo.size).getD 0
    ⟨p.1, sz, p.2, sz * (p.2.length - 1)⟩)

/-- Python dict lookup `subdirs[name]`. -/
def lookup : SubdirList → String → Option DirInfo
  | .nil, _ => none
  | .cons k v r, n => if k = n then some v else lookup r n

/-! ## Concrete fixtures (the specification's §8 scenarios) -/

/-- The entries of `root`: `a.txt`(100B) and `sub/` with `b.txt`(200B),
`c.txt`(200B). -/
def exampleEntries : FSList :=
  .cons (.file "a.txt" 100 false)
    (.cons (.dir "sub" (.cons (.file "b.txt" 200 false)
      (.cons (.file "c.txt" 200 false) .nil))) .nil)

/-- `root/a.txt`(100B), `root/sub/b.txt`(200B), `root/sub/c.txt`(200B). -/
def exampleTree : FSEntry := .dir "r" exampleEntries

/-- A scanner built with no caller-supplied exclusions, minimum size 0,
no depth limit, symlinks not followed. -/
def exampleCfg : Config := mkScanner none 0 none false

/-- A tree whose only file carries a name from the built-in default
exclusion set. -/
def trashTree : FSEntry := .dir "r" (.cons (.file ".Trashes" 5 false) .nil)

/-- A tree whose only file fails to `stat`. -/
def statFailTree : FSEntry := .dir "r" (.cons (.file "f.txt" 10 true) .nil)

/-- A tree with a single subdirectory. -/
def oneSubTree : FSEntry := .dir "r" (.cons (.dir "s" .nil) .nil)

/-! ## Step lemmas: one loop iteration of `_scan_directory` -/

theorem scanEntry_excluded (cfg : Config) (e : FSEntry) (d : DirInfo) (depth : Nat)
    (st : ScanState)
    (h : shouldExclude cfg.excludePatterns (childPath d.path e.name) e.name = true) :
    scanEntry cfg e d depth st = (d, st) := by
  unfold scanEntry
  simp [h]

theorem scanEntry_file_small (cfg : Config) (n : String) (sz : Nat) (sf : Bool)
    (d : DirInfo) (depth : Nat) (st : ScanState) (h : sz < cfg.minSize) :
    scanEntry cfg (.file n sz sf) d depth st = (d, st) := by
  simp [scanEntry, processFile, h]

theorem scanEntry_file_statFails (cfg : Config) (n : String) (sz : Nat)
    (d : DirInfo) (depth : Nat) (st : ScanState) :
    scanEntry cfg (.file n sz true) d depth st = (d, st) := by
  simp [scanEntry, processFile]

theorem scanEntry_file_ok (cfg : Config) (n : String) (sz : Nat)
    (d : DirInfo) (depth : Nat) (st : ScanState)
    (hex : shouldExclude cfg.excludePatterns (childPath d.path n) n = false)
    (hsz : ¬ sz < cfg.minSize) :
    scanEntry cfg (.file n sz false) d depth st =
      (addFile d ⟨childPath d.path n, sz, extOf n⟩,
       recordFile st ⟨childPath d.path n, sz, extOf n⟩) := by
  simp [scanEntry, FSEntry.name, hex, processFile, hsz]

theorem scanEntry_badEntry (cfg : Config) (n : String) (err : ScanError)
    (d : DirInfo) (depth : Nat) (st : ScanState)
    (hex : shouldExclude cfg.excludePatterns (childPath d.path n) n = false) :
    scanEntry cfg (.badEntry n err) d depth st =
      (d, pushErr st (entryErrMsg (childPath d.path n) err)) := by
  simp [scanEntry, FSEntry.name, hex]

theorem scanEntry_dir_deep (cfg : Config) (n : String) (es : FSList)
    (d : DirInfo) (depth : Nat) (st : ScanState)
    (hex : shouldExclude cfg.excludePatterns (childPath d.path n) n = false)
    (hdeep : depthExceeded cfg (depth + 1) = true) :
    scanEntry cfg (.dir n es) d depth st =
      (addSubdir d n (freshDir (childPath d.path n)),
       recordDir st (freshDir (childPath d.path n))) := by
  simp [scanEntry, FSEntry.name, hex, hdeep]

theorem scanEntry_dir (cfg : Config) (n : String) (es : FSList)
    (d : DirInfo) (depth : Nat) (st : ScanState)
    (hex : shouldExclude cfg.excludePatterns (childPath d.path n) n = false)
    (hdeep : depthExceeded cfg (depth + 1) = false) :
    scanEntry cfg (.dir n es) d depth st =
      (addSubdir d n (scanEntries cfg es (freshDir (childPath d.path n)) (depth + 1) st).1,
       recordDir (scanEntries cfg es (freshDir (childPath d.path n)) (depth + 1) st).2
         (scanEntries cfg es (freshDir (childPath d.path n)) (depth + 1) st).1) := by
  simp [scanEntry, FSEntry.name, hex, hdeep]

theorem scanEntry_unreadable_deep (cfg : Config) (n : String) (err : ScanError)
    (d : DirInfo) (depth : Nat) (st : ScanState)
    (hex : shouldExclude cfg.excludePatterns (childPath d.path n) n = false)
    (hdeep : depthExceeded cfg (depth + 1) = true) :
    scanEntry cfg (.unreadableDir n err) d depth st =
      (addSubdir d n (freshDir (childPath d.path n)),
       recordDir st (freshDir (childPath d.path n))) := by
  simp [scanEntry, FSEntry.name, hex, hdeep]

theorem scanEntry_unreadable (cfg : Config) (n : String) (err : ScanError)
    (d : DirInfo) (depth : Nat) (st : ScanState)
    (hex : shouldExclude cfg.excludePatterns (childPath d.path n) n = false)
    (hdeep : depthExceeded cfg (depth + 1) = false) :
    scanEntry cfg (.unreadableDir n err) d depth st =
      (addSubdir d n (markErr (freshDir (childPath d.path n)) err),
       recordDir (pushErr st (entryErrMsg (childPath d.path n) err))
         (markErr (freshDir (childPath d.path n)) err)) := by
  simp [scanEntry, FSEntry.name, hex, hdeep]

theorem scanEntry_symlink_nofollow (cfg : Config) (n : String) (t : OptEntry)
    (d : DirInfo) (depth : Nat) (st : ScanState) (h : cfg.followSymlinks = false) :
    scanEntry cfg (.symlink n t) d depth st = (d, st) := by
  cases t with
  | none => simp [scanEntry, h]
  | some e' => cases e' <;> simp [scanEntry, h]

theorem scanEntry_symlink_broken (cfg : Config) (n : String)
    (d : DirInfo) (depth : Nat) (st : ScanState) :
    scanEntry cfg (.symlink n OptEntry.none) d depth st = (d, st) := by
  simp [scanEntry]

theorem scanEntry_symlink_symlink (cfg : Config) (n n' : String) (t' : OptEntry)
    (d : DirInfo) (depth : Nat) (st : ScanState) :
    scanEntry cfg (.symlink n (OptEntry.some (.symlink n' t'))) d depth st = (d, st) := by
  simp [scanEntry]

theorem scanEntry_symlink_bad (cfg : Config) (n n' : String) (err : ScanError)
    (d : DirInfo) (depth : Nat) (st : ScanState) :
    scanEntry cfg (.symlink n (OptEntry.some (.badEntry n' err))) d depth st = (d, st) := by
  simp [scanEntry]

theorem scanEntry_symlink_file (cfg : Config) (n n' : String) (sz : Nat) (sf : Bool)
    (d : DirInfo) (depth : Nat) (st : ScanState)
    (hex : shouldExclude cfg.excludePatterns (childPath d.path n) n = false)
    (hf : cfg.followSymlinks = true) :
    scanEntry cfg (.symlink n (OptEntry.some (.file n' sz sf))) d depth st =
      processFile cfg (childPath d.path n) n sz sf d st := by
  simp [scanEntry, FSEntry.name, hex, hf]

theorem scanEntry_symlink_dir_deep (cfg : Config) (n n' : String) (es : FSList)
    (d : DirInfo) (depth : Nat) (st : ScanState)
    (hex : shouldExclude cfg.excludePatterns (childPath d.path n) n = false)
    (hf : cfg.followSymlinks = true)
    (hdeep : depthExceeded cfg (depth + 1) = true) :
    scanEntry cfg (.symlink n (OptEntry.some (.dir n' es))) d depth st =
      (addSubdir d n (freshDir (childPath d.path n)),
       recordDir st (freshDir (childPath d.path n))) := by
  simp [scanEntry, FSEntry.name, hex, hf, hdeep]

theorem scanEntry_symlink_dir (cfg : Config) (n n' : String) (es : FSList)
    (d : DirInfo) (depth : Nat) (st : ScanState)
    (hex : shouldExclude cfg.excludePatterns (childPath d.path n) n = false)
    (hf : cfg.followSymlinks = true)
    (hdeep : depthExceeded cfg (depth + 1) = false) :
    scanEntry cfg (.symlink n (OptEntry.some (.dir n' es))) d depth st =
      (addSubdir d n (scanEntries cfg es (freshDir (childPath d.path n)) (depth + 1) st).1,
       recordDir (scanEntries cfg es (freshDir (childPath d.path n)) (depth + 1) st).2
         (scanEntries cfg es (freshDir (childPath d.path n)) (depth + 1) st).1) := by
  simp [scanEntry, FSEntry.name, hex, hf, hdeep]

theorem scanEntry_symlink_unreadable_deep (cfg : Config) (n n' : String) (err : ScanError)
    (d : DirInfo) (depth : Nat) (st : ScanState)
    (hex : shouldExclude cfg.excludePatterns (childPath d.path n) n = false)
    (hf : cfg.followSymlinks = true)
    (hdeep : depthExceeded cfg (depth + 1) = true) :
    scanEntry cfg (.symlink n (OptEntry.some (.unreadableDir n' err))) d depth st =
      (addSubdir d n (freshDir (childPath d.path n)),
       recordDir st (freshDir (childPath d.path n))) := by
  simp [scanEntry, FSEntry.name, hex, hf, hdeep]

theorem scanEntry_symlink_unreadable (cfg : Config) (n n' : String) (err : ScanError)
    (d : DirInfo) (depth : Nat) (st : ScanState)
    (hex : shouldExclude cfg.excludePatterns (childPath d.path n) n = false)
    (hf : cfg.followSymlinks = true)
    (hdeep : depthExceeded cfg (depth + 1) = false) :
    scanEntry cfg (.symlink n (OptEntry.some (.unreadableDir n' err))) d depth st =
      (addSubdir d n (markErr (freshDir (childPath d.path n)) err),
       recordDir (pushErr st (entryErrMsg (childPath d.path n) err))
         (markErr (freshDir (childPath d.path n)) err)) := by
  simp [scanEntry, FSEntry.name, hex, hf, hdeep]

theorem scanEntries_nil (cfg : Config) (d : DirInfo) (depth : Nat) (st : ScanState) :
    scanEntries cfg .nil d depth st = (d, st) := by
  simp [scanEntries]

theorem scanEntries_cons (cfg : Config) (e : FSEntry) (rest : FSList)
    (d : DirInfo) (depth : Nat) (st : ScanState) :
    scanEntries cfg (.cons e rest) d depth st =
      scanEntries cfg rest (scanEntry cfg e d depth st).1 depth
        (scanEntry cfg e d depth st).2 := by
  simp [scanEntries]

/-! ## The counters track the flat lists (towards C10) -/

def stInv (st : ScanState) : Prop :=
  st.files_scanned = st.all_files.length ∧ st.dirs_scanned = st.all_dirs.length

theorem stInv_pushErr (st : ScanState) (m : String) (h : stInv st) :
    stInv (pushErr st m) := by
  simpa [pushErr, stInv] using h

theorem stInv_recordFile (st : ScanState) (fi : FileInfo) (h : stInv st) :
    stInv (recordFile st fi) := by
  obtain ⟨h1, h2⟩ := h
  simp [recordFile, stInv, h1, h2]

theorem stInv_recordDir (st : ScanState) (d : DirInfo) (h : stInv st) :
    stInv (recordDir st d) := by
  obtain ⟨h1, h2⟩ := h
  simp [recordDir, stInv, h1, h2]

theorem stInv_processFile (cfg : Config) (path name : String) (sz : Nat) (sf : Bool)
    (d : DirInfo) (st : ScanState) (h : stInv st) :
    stInv (processFile cfg path name sz sf d st).2 := by
  unfold processFile
  split
  · exact h
  · split
    · exact h
    · exact stInv_recordFile st _ h

mutual
theorem stInv_scanEntries (cfg : Config) (es : FSList) (d : DirInfo) (depth : Nat)
    (st : ScanState) (h : stInv st) : stInv (scanEntries cfg es d depth st).2 := by
  match es with
  | .nil => rw [scanEntries_nil]; exact h
  | .cons e rest =>
      rw [scanEntries_cons]
      exact stInv_scanEntries cfg rest _ depth _ (stInv_scanEntry cfg e d depth st h)

theorem stInv_scanEntry (cfg : Config) (e : FSEntry) (d : DirInfo) (depth : Nat)
    (st : ScanState) (h : stInv st) : stInv (scanEntry cfg e d depth st).2 := by
  by_cases hex :
      shouldExclude cfg.excludePatterns (childPath d.path e.name) e.name = true
  · rw [scanEntry_excluded cfg e d depth st hex]; exact h
  · rw [Bool.not_eq_true] at hex
    match e with
    | .file n sz sf =>
        match sf with
        | true => rw [scanEntry_file_statFails]; exact h
        | false =>
            by_cases hsz : sz < cfg.minSize
            · rw [scanEntry_file_small cfg n sz false d depth st hsz]; exact h
            · rw [scanEntry_file_ok cfg n sz d depth st hex hsz]
              exact stInv_recordFile st _ h
    | .badEntry n err =>
        rw [scanEntry_badEntry cfg n err d depth st hex]
        exact stInv_pushErr st _ h
    | .dir n es =>
        cases hdeep : depthExceeded cfg (depth + 1) with
        | true =>
            rw [scanEntry_dir_deep cfg n es d depth st hex hdeep]
            exact stInv_recordDir st _ h
        | false =>
            rw [scanEntry_dir cfg n es d depth st hex hdeep]
            exact stInv_recordDir _ _ (stInv_scanEntries cfg es _ (depth + 1) st h)
    | .unreadableDir n err =>
        cases hdeep : depthExceeded cfg (depth + 1) with
        | true =>
            rw [scanEntry_unreadable_deep cfg n err d depth st hex hdeep]
            exact stInv_recordDir st _ h
        | false =>
            rw [scanEntry_unreadable cfg n err d depth st hex hdeep]
            exact stInv_recordDir _ _ (stInv_pushErr st _ h)
    | .symlink n t =>
        cases hf : cfg.followSymlinks with
        | false => rw [scanEntry_symlink_nofollow cfg n t d depth st hf]; exact h
        | true =>
            match t with
            | OptEntry.none =>
                rw [scanEntry_symlink_broken]; exact h
            | OptEntry.some (.file n' sz sf) =>
                rw [scanEntry_symlink_file cfg n n' sz sf d depth st hex hf]
                exact stInv_processFile cfg _ n sz sf d st h
            | OptEntry.some (.dir n' es) =>
                cases hdeep : depthExceeded cfg (depth + 1) with
                | true =>
                    rw [scanEntry_symlink_dir_deep cfg n n' es d depth st hex hf hdeep]
                    exact stInv_recordDir st _ h
                | false =>
                    rw [scanEntry_symlink_dir cfg n n' es d depth st hex hf hdeep]
                    exact stInv_recordDir _ _ (stInv_scanEntries cfg es _ (depth + 1) st h)
            | OptEntry.some (.unreadableDir n' err) =>
                cases hdeep : depthExceeded cfg (depth + 1) with
                | true =>
                    rw [scanEntry_symlink_unreadable_deep cfg n n' err d depth st hex hf hdeep]
                    exact stInv_recordDir st _ h
                | false =>
                    rw [scanEntry_symlink_unreadable cfg n n' err d depth st hex hf hdeep]
                    exact stInv_recordDir _ _ (stInv_pushErr st _ h)
            | OptEntry.some (.symlink n' t') =>
                rw [scanEntry_symlink_symlink]; exact h
            | OptEntry.some (.badEntry n' err) =>
                rw [scanEntry_symlink_bad]; exact h
end

/-! ## Algebra of `SubdirList` -/

theorem keys_scat (a b : SubdirList) : keys (scat a b) = keys a ++ keys b := by
  match a with
  | .nil => simp [scat, keys]
  | .cons k v r => simp [scat, keys, keys_scat r b]

theorem scat_nil (a : SubdirList) : scat a .nil = a := by
  match a with
  | .nil => rfl
  | .cons k v r => simp [scat, scat_nil r]

theorem scat_assoc (a b c : SubdirList) : scat (scat a b) c = scat a (scat b c) := by
  match a with
  | .nil => rfl
  | .cons k v r => simp [scat, scat_assoc r b c]

theorem dictInsert_fresh (sd : SubdirList) (k : String) (v : DirInfo)
    (h : k ∉ keys sd) : dictInsert sd k v = scat sd (.cons k v .nil) := by
  match sd with
  | .nil => rfl
  | .cons k' v' r =>
      simp [keys] at h
      simp [dictInsert, scat, h.1, dictInsert_fresh r k v h.2]
      intro hk
      exact absurd hk.symm h.1

theorem sumSubs_scat (a b : SubdirList) : sumSubs (scat a b) = sumSubs a + sumSubs b := by
  match a with
  | .nil => simp [scat, sumSubs]
  | .cons k v r => simp [scat, sumSubs, sumSubs_scat r b]; omega

theorem subsInvB_scat (a b : SubdirList) :
    subsInvB (scat a b) = (subsInvB a && subsInvB b) := by
  match a with
  | .nil => simp [scat, subsInvB]
  | .cons k v r => simp [scat, subsInvB, subsInvB_scat r b, Bool.and_assoc]

theorem postSubs_scat (a b : SubdirList) :
    postSubs (scat a b) = postSubs a ++ postSubs b := by
  match a with
  | .nil => simp [scat, postSubs]
  | .cons k v r => simp [scat, postSubs, postSubs_scat r b]

theorem subFiles_scat (a b : SubdirList) :
    subFiles (scat a b) = subFiles a ++ subFiles b := by
  match a with
  | .nil => simp [scat, subFiles]
  | .cons k v r => simp [scat, subFiles, subFiles_scat r b]

theorem subsMinOK_scat (m : Nat) (a b : SubdirList) :
    subsMinOK m (scat a b) = (subsMinOK m a && subsMinOK m b) := by
  match a with
  | .nil => simp [scat, subsMinOK]
  | .cons k v r => simp [scat, subsMinOK, subsMinOK_scat m r b, Bool.and_assoc]

theorem subsMinOK_dictInsert (m : Nat) (sd : SubdirList) (k : String) (v : DirInfo)
    (h1 : subsMinOK m sd = true) (h2 : treeMinOK m v = true) :
    subsMinOK m (dictInsert sd k v) = true := by
  match sd with
  | .nil => simp [dictInsert, subsMinOK, h2]
  | .cons k' v' r =>
      simp [subsMinOK, Bool.and_eq_true] at h1
      by_cases hk : k' = k
      · simp [dictInsert, hk, subsMinOK, h2, h1.2]
      · simp [dictInsert, hk, subsMinOK, h1.1,
          subsMinOK_dictInsert m r k v h1.2 h2]

/-! ## Minimum-size filtering (towards C5) -/

def stMinOK (m : Nat) (st : ScanState) : Prop :=
  ∀ f ∈ st.all_files, m ≤ f.size

theorem treeMinOK_fresh (m : Nat) (p : String) : treeMinOK m (freshDir p) = true := by
  simp [freshDir, treeMinOK, subsMinOK]

theorem treeMinOK_markErr (m : Nat) (d : DirInfo) (err : ScanError)
    (h : treeMinOK m d = true) : treeMinOK m (markErr d err) = true := by
  match d with
  | .mk p t fc dc fs sd e => simpa [markErr, treeMinOK] using h

theorem treeMinOK_addFile (m : Nat) (d : DirInfo) (fi : FileInfo)
    (h1 : treeMinOK m d = true) (h2 : m ≤ fi.size) :
    treeMinOK m (addFile d fi) = true := by
  match d with
  | .mk p t fc dc fs sd e =>
      simp [treeMinOK, Bool.and_eq_true] at h1
      simp [addFile, treeMinOK, Bool.and_eq_true, List.all_append, h1.2, h2]
      exact h1.1

theorem treeMinOK_addSubdir (m : Nat) (d : DirInfo) (n : String) (sub : DirInfo)
    (h1 : treeMinOK m d = true) (h2 : treeMinOK m sub = true) :
    treeMinOK m (addSubdir d n sub) = true := by
  match d with
  | .mk p t fc dc fs sd e =>
      simp [treeMinOK, Bool.and_eq_true] at h1
      simp [addSubdir, treeMinOK, Bool.and_eq_true,
        subsMinOK_dictInsert m sd n sub h1.2 h2]
      exact h1.1

theorem stMinOK_pushErr (m : Nat) (st : ScanState) (s : String)
    (h : stMinOK m st) : stMinOK m (pushErr st s) := by
  simpa [pushErr, stMinOK] using h

theorem stMinOK_recordDir (m : Nat) (st : ScanState) (d : DirInfo)
    (h : stMinOK m st) : stMinOK m (recordDir st d) := by
  simpa [recordDir, stMinOK] using h

theorem stMinOK_recordFile (m : Nat) (st : ScanState) (fi : FileInfo)
    (h : stMinOK m st) (h2 : m ≤ fi.size) : stMinOK m (recordFile st fi) := by
  intro f hf
  simp [recordFile] at hf
  rcases hf with hf | hf
  · exact h f hf
  · subst hf; exact h2

theorem minOK_processFile (cfg : Config) (path name : String) (sz : Nat) (sf : Bool)
    (d : DirInfo) (st : ScanState)
    (hd : treeMinOK cfg.minSize d = true) (hs : stMinOK cfg.minSize st) :
    treeMinOK cfg.minSize (processFile cfg path name sz sf d st).1 = true ∧
      stMinOK cfg.minSize (processFile cfg path name sz sf d st).2 := by
  unfold processFile
  split
  · exact ⟨hd, hs⟩
  · split
    · exact ⟨hd, hs⟩
    · rename_i hsz
      exact ⟨treeMinOK_addFile _ d _ hd (Nat.le_of_not_lt hsz),
        stMinOK_recordFile _ st _ hs (Nat.le_of_not_lt hsz)⟩

mutual
theorem minOK_scanEntries (cfg : Config) (es : FSList) (d : DirInfo) (depth : Nat)
    (st : ScanState) (hd : treeMinOK cfg.minSize d = true) (hs : stMinOK cfg.minSize st) :
    treeMinOK cfg.minSize (scanEntries cfg es d depth st).1 = true ∧
      stMinOK cfg.minSize (scanEntries cfg es d depth st).2 := by
  match es with
  | .nil => rw [scanEntries_nil]; exact ⟨hd, hs⟩
  | .cons e rest =>
      rw [scanEntries_cons]
      have h1 := minOK_scanEntry cfg e d depth st hd hs
      exact minOK_scanEntries cfg rest _ depth _ h1.1 h1.2

theorem minOK_scanEntry (cfg : Config) (e : FSEntry) (d : DirInfo) (depth : Nat)
    (st : ScanState) (hd : treeMinOK cfg.minSize d = true) (hs : stMinOK cfg.minSize st) :
    treeMinOK cfg.minSize (scanEntry cfg e d depth st).1 = true ∧
      stMinOK cfg.minSize (scanEntry cfg e d depth st).2 := by
  by_cases hex :
      shouldExclude cfg.excludePatterns (childPath d.path e.name) e.name = true
  · rw [scanEntry_excluded cfg e d depth st hex]; exact ⟨hd, hs⟩
  · rw [Bool.not_eq_true] at hex
    match e with
    | .file n sz sf =>
        simp only [FSEntry.name] at hex
        have heq : scanEntry cfg (.file n sz sf) d depth st =
            processFile cfg (childPath d.path n) n sz sf d st := by
          simp [scanEntry, FSEntry.name, hex]
        rw [heq]
        exact minOK_processFile cfg _ n sz sf d st hd hs
    | .badEntry n err =>
        rw [scanEntry_badEntry cfg n err d depth st hex]
        exact ⟨hd, stMinOK_pushErr _ st _ hs⟩
    | .dir n es =>
        cases hdeep : depthExceeded cfg (depth + 1) with
        | true =>
            rw [scanEntry_dir_deep cfg n es d depth st hex hdeep]
            exact ⟨treeMinOK_addSubdir _ d n _ hd (treeMinOK_fresh _ _),
              stMinOK_recordDir _ st _ hs⟩
        | false =>
            rw [scanEntry_dir cfg n es d depth st hex hdeep]
            have h1 := minOK_scanEntries cfg es (freshDir (childPath d.path n))
              (depth + 1) st (treeMinOK_fresh _ _) hs
            exact ⟨treeMinOK_addSubdir _ d n _ hd h1.1, stMinOK_recordDir _ _ _ h1.2⟩
    | .unreadableDir n err =>
        cases hdeep : depthExceeded cfg (depth + 1) with
        | true =>
            rw [scanEntry_unreadable_deep cfg n err d depth st hex hdeep]
            exact ⟨treeMinOK_addSubdir _ d n _ hd (treeMinOK_fresh _ _),
              stMinOK_recordDir _ st _ hs⟩
        | false =>
            rw [scanEntry_unreadable cfg n err d depth st hex hdeep]
            exact ⟨treeMinOK_addSubdir _ d n _ hd
                (treeMinOK_markErr _ _ _ (treeMinOK_fresh _ _)),
              stMinOK_recordDir _ _ _ (stMinOK_pushErr _ st _ hs)⟩
    | .symlink n t =>
        cases hf : cfg.followSymlinks with
        | false =>
            rw [scanEntry_symlink_nofollow cfg n t d depth st hf]; exact ⟨hd, hs⟩
        | true =>
            match t with
            | OptEntry.none => rw [scanEntry_symlink_broken]; exact ⟨hd, hs⟩
            | OptEntry.some (.file n' sz sf) =>
                rw [scanEntry_symlink_file cfg n n' sz sf d depth st hex hf]
                exact minOK_processFile cfg _ n sz sf d st hd hs
            | OptEntry.some (.dir n' es) =>
                cases hdeep : depthExceeded cfg (depth + 1) with
                | true =>
                    rw [scanEntry_symlink_dir_deep cfg n n' es d depth st hex hf hdeep]
                    exact ⟨treeMinOK_addSubdir _ d n _ hd (treeMinOK_fresh _ _),
                      stMinOK_recordDir _ st _ hs⟩
                | false =>
                    rw [scanEntry_symlink_dir cfg n n' es d depth st hex hf hdeep]
                    have h1 := minOK_scanEntries cfg es (freshDir (childPath d.path n))
                      (depth + 1) st (treeMinOK_fresh _ _) hs
                    exact ⟨treeMinOK_addSubdir _ d n _ hd h1.1,
                      stMinOK_recordDir _ _ _ h1.2⟩
            | OptEntry.some (.unreadableDir n' err) =>
                cases hdeep : depthExceeded cfg (depth + 1) with
                | true =>
                    rw [scanEntry_symlink_unreadable_deep cfg n n' err d depth st hex hf hdeep]
                    exact ⟨treeMinOK_addSubdir _ d n _ hd (treeMinOK_fresh _ _),
                      stMinOK_recordDir _ st _ hs⟩
                | false =>
                    rw [scanEntry_symlink_unreadable cfg n n' err d depth st hex hf hdeep]
                    exact ⟨treeMinOK_addSubdir _ d n _ hd
                        (treeMinOK_markErr _ _ _ (treeMinOK_fresh _ _)),
                      stMinOK_recordDir _ _ _ (stMinOK_pushErr _ st _ hs)⟩
            | OptEntry.some (.symlink n' t') =>
                rw [scanEntry_symlink_symlink]; exact ⟨hd, hs⟩
            | OptEntry.some (.badEntry n' err) =>
                rw [scanEntry_symlink_bad]; exact ⟨hd, hs⟩
end

/-! ## The `total_size` invariant (towards C1) -/

theorem sumFiles_append (a b : List FileInfo) :
    sumFiles (a ++ b) = sumFiles a + sumFiles b := by
  induction a with
  | nil => simp [sumFiles]
  | cons f r ih => simp [sumFiles, ih]; omega

theorem allInvB_fresh (p : String) : allInvB (freshDir p) = true := by
  simp [freshDir, allInvB, sumFiles, sumSubs, subsInvB]

theorem allInvB_markErr (d : DirInfo) (err : ScanError) (h : allInvB d = true) :
    allInvB (markErr d err) = true := by
  match d with
  | .mk p t fc dc fs sd e => simpa [markErr, allInvB] using h

theorem allInvB_addFile (d : DirInfo) (fi : FileInfo) (h : allInvB d = true) :
    allInvB (addFile d fi) = true := by
  match d with
  | .mk p t fc dc fs sd e =>
      simp [allInvB, Bool.and_eq_true, beq_iff_eq] at h
      simp [addFile, allInvB, Bool.and_eq_true, beq_iff_eq, sumFiles_append,
        sumFiles, h.1, h.2]
      omega

theorem subdirs_addFile (d : DirInfo) (fi : FileInfo) :
    (addFile d fi).subdirs = d.subdirs := by
  match d with
  | .mk p t fc dc fs sd e => simp [addFile, DirInfo.subdirs]

theorem allInvB_addSubdir (d : DirInfo) (n : String) (sub : DirInfo)
    (h : allInvB d = true) (hsub : allInvB sub = true)
    (hk : n ∉ keys d.subdirs) : allInvB (addSubdir d n sub) = true := by
  match d with
  | .mk p t fc dc fs sd e =>
      simp [DirInfo.subdirs] at hk
      simp [allInvB, Bool.and_eq_true, beq_iff_eq] at h
      simp [addSubdir, allInvB, Bool.and_eq_true, beq_iff_eq,
        dictInsert_fresh sd n sub hk, sumSubs_scat, subsInvB_scat,
        sumSubs, subsInvB, h.1, h.2, hsub]
      omega

theorem keys_addSubdir (d : DirInfo) (n : String) (sub : DirInfo)
    (hk : n ∉ keys d.subdirs) :
    keys (addSubdir d n sub).subdirs = keys d.subdirs ++ [n] := by
  match d with
  | .mk p t fc dc fs sd e =>
      simp [DirInfo.subdirs] at hk
      simp [addSubdir, DirInfo.subdirs, dictInsert_fresh sd n sub hk,
        keys_scat, keys]

theorem inv_processFile (cfg : Config) (path name : String) (sz : Nat) (sf : Bool)
    (d : DirInfo) (st : ScanState) (h : allInvB d = true) :
    allInvB (processFile cfg path name sz sf d st).1 = true ∧
      (processFile cfg path name sz sf d st).1.subdirs = d.subdirs := by
  unfold processFile
  split
  · exact ⟨h, rfl⟩
  · split
    · exact ⟨h, rfl⟩
    · exact ⟨allInvB_addFile d _ h, subdirs_addFile d _⟩

mutual
theorem inv_scanEntries (cfg : Config) (es : FSList) (d : DirInfo) (depth : Nat)
    (st : ScanState) (hwf : wfL es = true) (hnd : nodupStr (namesOf es) = true)
    (hdisj : ∀ k ∈ namesOf es, k ∉ keys d.subdirs)
    (hinv : allInvB d = true) :
    allInvB (scanEntries cfg es d depth st).1 = true ∧
      ∀ k ∈ keys (scanEntries cfg es d depth st).1.subdirs,
        k ∈ keys d.subdirs ∨ k ∈ namesOf es := by
  match es with
  | .nil =>
      rw [scanEntries_nil]
      exact ⟨hinv, fun k hk => Or.inl hk⟩
  | .cons e rest =>
      rw [scanEntries_cons]
      rw [wfL, Bool.and_eq_true] at hwf
      rw [namesOf] at hnd hdisj ⊢
      rw [nodupStr, Bool.and_eq_true, Bool.not_eq_true'] at hnd
      have hne : e.name ∉ namesOf rest := by simpa using hnd.1
      have h1 := inv_scanEntry cfg e d depth st hwf.1
        (hdisj e.name (List.mem_cons_self _ _)) hinv
      have hdisj' : ∀ k ∈ namesOf rest,
          k ∉ keys (scanEntry cfg e d depth st).1.subdirs := by
        intro k hkr hkd
        rcases h1.2 k hkd with hc | hc
        · exact hdisj k (List.mem_cons_of_mem _ hkr) hc
        · subst hc; exact hne hkr
      have h2 := inv_scanEntries cfg rest (scanEntry cfg e d depth st).1 depth
        (scanEntry cfg e d depth st).2 hwf.2 hnd.2 hdisj' h1.1
      refine ⟨h2.1, fun k hk => ?_⟩
      rcases h2.2 k hk with hc | hc
      · rcases h1.2 k hc with hc' | hc'
        · exact Or.inl hc'
        · exact Or.inr (by simp [hc'])
      · exact Or.inr (List.mem_cons_of_mem _ hc)

theorem inv_scanEntry (cfg : Config) (e : FSEntry) (d : DirInfo) (depth : Nat)
    (st : ScanState) (hwf : wfB e = true)
    (hk : e.name ∉ keys d.subdirs) (hinv : allInvB d = true) :
    allInvB (scanEntry cfg e d depth st).1 = true ∧
      ∀ k ∈ keys (scanEntry cfg e d depth st).1.subdirs,
        k ∈ keys d.subdirs ∨ k = e.name := by
  by_cases hex :
      shouldExclude cfg.excludePatterns (childPath d.path e.name) e.name = true
  · rw [scanEntry_excluded cfg e d depth st hex]
    exact ⟨hinv, fun k hkk => Or.inl hkk⟩
  · rw [Bool.not_eq_true] at hex
    match e with
    | .file n sz sf =>
        simp only [FSEntry.name] at hex hk ⊢
        have heq : scanEntry cfg (.file n sz sf) d depth st =
            processFile cfg (childPath d.path n) n sz sf d st := by
          simp [scanEntry, FSEntry.name, hex]
        rw [heq]
        have h1 := inv_processFile cfg (childPath d.path n) n sz sf d st hinv
        exact ⟨h1.1, fun k hkk => Or.inl (h1.2 ▸ hkk)⟩
    | .badEntry n err =>
        rw [scanEntry_badEntry cfg n err d depth st hex]
        exact ⟨hinv, fun k hkk => Or.inl hkk⟩
    | .dir n es =>
        simp only [FSEntry.name] at hk ⊢
        rw [wfB, Bool.and_eq_true] at hwf
        cases hdeep : depthExceeded cfg (depth + 1) with
        | true =>
            rw [scanEntry_dir_deep cfg n es d depth st hex hdeep]
            refine ⟨allInvB_addSubdir d n _ hinv (allInvB_fresh _) hk, fun k hkk => ?_⟩
            rw [keys_addSubdir d n _ hk] at hkk
            simpa using hkk
        | false =>
            rw [scanEntry_dir cfg n es d depth st hex hdeep]
            have h1 := inv_scanEntries cfg es (freshDir (childPath d.path n))
              (depth + 1) st hwf.2 hwf.1 (by simp [freshDir, DirInfo.subdirs, keys])
              (allInvB_fresh _)
            refine ⟨allInvB_addSubdir d n _ hinv h1.1 hk, fun k hkk => ?_⟩
            rw [keys_addSubdir d n _ hk] at hkk
            simpa using hkk
    | .unreadableDir n err =>
        simp only [FSEntry.name] at hk ⊢
        cases hdeep : depthExceeded cfg (depth + 1) with
        | true =>
            rw [scanEntry_unreadable_deep cfg n err d depth st hex hdeep]
            refine ⟨allInvB_addSubdir d n _ hinv (allInvB_fresh _) hk, fun k hkk => ?_⟩
            rw [keys_addSubdir d n _ hk] at hkk
            simpa using hkk
        | false =>
            rw [scanEntry_unreadable cfg n err d depth st hex hdeep]
            refine ⟨allInvB_addSubdir d n _ hinv
              (allInvB_markErr _ err (allInvB_fresh _)) hk, fun k hkk => ?_⟩
            rw [keys_addSubdir d n _ hk] at hkk
            simpa using hkk
    | .symlink n t =>
        simp only [FSEntry.name] at hk ⊢
        cases hf : cfg.followSymlinks with
        | false =>
            rw [scanEntry_symlink_nofollow cfg n t d depth st hf]
            exact ⟨hinv, fun k hkk => Or.inl hkk⟩
        | true =>
            match t with
            | OptEntry.none =>
                rw [scanEntry_symlink_broken]
                exact ⟨hinv, fun k hkk => Or.inl hkk⟩
            | OptEntry.some (.file n' sz sf) =>
                rw [scanEntry_symlink_file cfg n n' sz sf d depth st hex hf]
                have h1 := inv_processFile cfg (childPath d.path n) n sz sf d st hinv
                exact ⟨h1.1, fun k hkk => Or.inl (h1.2 ▸ hkk)⟩
            | OptEntry.some (.dir n' es) =>
                rw [wfB, wfB, Bool.and_eq_true] at hwf
                cases hdeep : depthExceeded cfg (depth + 1) with
                | true =>
                    rw [scanEntry_symlink_dir_deep cfg n n' es d depth st hex hf hdeep]
                    refine ⟨allInvB_addSubdir d n _ hinv (allInvB_fresh _) hk,
                      fun k hkk => ?_⟩
                    rw [keys_addSubdir d n _ hk] at hkk
                    simpa using hkk
                | false =>
                    rw [scanEntry_symlink_dir cfg n n' es d depth st hex hf hdeep]
                    have h1 := inv_scanEntries cfg es (freshDir (childPath d.path n))
                      (depth + 1) st hwf.2 hwf.1
                      (by simp [freshDir, DirInfo.subdirs, keys]) (allInvB_fresh _)
                    refine ⟨allInvB_addSubdir d n _ hinv h1.1 hk, fun k hkk => ?_⟩
                    rw [keys_addSubdir d n _ hk] at hkk
                    simpa using hkk
            | OptEntry.some (.unreadableDir n' err) =>
                cases hdeep : depthExceeded cfg (depth + 1) with
                | true =>
                    rw [scanEntry_symlink_unreadable_deep cfg n n' err d depth st hex hf hdeep]
                    refine ⟨allInvB_addSubdir d n _ hinv (allInvB_fresh _) hk,
                      fun k hkk => ?_⟩
                    rw [keys_addSubdir d n _ hk] at hkk
                    simpa using hkk
                | false =>
                    rw [scanEntry_symlink_unreadable cfg n n' err d depth st hex hf hdeep]
                    refine ⟨allInvB_addSubdir d n _ hinv
                      (allInvB_markErr _ err (allInvB_fresh _)) hk, fun k hkk => ?_⟩
                    rw [keys_addSubdir d n _ hk] at hkk
                    simpa using hkk
            | OptEntry.some (.symlink n' t') =>
                rw [scanEntry_symlink_symlink]
                exact ⟨hinv, fun k hkk => Or.inl hkk⟩
            | OptEntry.some (.badEntry n' err) =>
                rw [scanEntry_symlink_bad]
                exact ⟨hinv, fun k hkk => Or.inl hkk⟩
end

/-! ## Exact totals on clean, unexcluded trees (towards C1) -/

theorem total_addFile (d : DirInfo) (fi : FileInfo) :
    (addFile d fi).total_size = d.total_size + fi.size := by
  match d with
  | .mk p t fc dc fs sd e => simp [addFile, DirInfo.total_size]

theorem path_addFile (d : DirInfo) (fi : FileInfo) :
    (addFile d fi).path = d.path := by
  match d with
  | .mk p t fc dc fs sd e => simp [addFile, DirInfo.path]

theorem total_addSubdir (d : DirInfo) (n : String) (sub : DirInfo) :
    (addSubdir d n sub).total_size = d.total_size + sub.total_size := by
  match d with
  | .mk p t fc dc fs sd e => simp [addSubdir, DirInfo.total_size]

theorem path_addSubdir (d : DirInfo) (n : String) (sub : DirInfo) :
    (addSubdir d n sub).path = d.path := by
  match d with
  | .mk p t fc dc fs sd e => simp [addSubdir, DirInfo.path]

theorem depthExceeded_none (cfg : Config) (depth : Nat) (h : cfg.maxDepth = none) :
    depthExceeded cfg depth = false := by
  simp [depthExceeded, h]

mutual
theorem total_scanEntries (cfg : Config) (es : FSList) (d : DirInfo) (depth : Nat)
    (st : ScanState) (hc : cleanL es = true)
    (hne : noExclL cfg.excludePatterns d.path es = true)
    (hmin : cfg.minSize = 0) (hdep : cfg.maxDepth = none) :
    (scanEntries cfg es d depth st).1.total_size = d.total_size + totalBytesL es ∧
      (scanEntries cfg es d depth st).1.path = d.path := by
  match es with
  | .nil =>
      rw [scanEntries_nil]
      simp [totalBytesL]
  | .cons e rest =>
      rw [scanEntries_cons]
      rw [cleanL, Bool.and_eq_true] at hc
      rw [noExclL, Bool.and_eq_true] at hne
      have h1 := total_scanEntry cfg e d depth st hc.1 hne.1 hmin hdep
      have h2 := total_scanEntries cfg rest (scanEntry cfg e d depth st).1 depth
        (scanEntry cfg e d depth st).2 hc.2 (h1.2.symm ▸ hne.2) hmin hdep
      rw [h2.1, h1.1, h2.2, h1.2, totalBytesL]
      exact ⟨by omega, rfl⟩

theorem total_scanEntry (cfg : Config) (e : FSEntry) (d : DirInfo) (depth : Nat)
    (st : ScanState) (hc : cleanB e = true)
    (hne : noExclB cfg.excludePatterns d.path e = true)
    (hmin : cfg.minSize = 0) (hdep : cfg.maxDepth = none) :
    (scanEntry cfg e d depth st).1.total_size = d.total_size + totalBytes e ∧
      (scanEntry cfg e d depth st).1.path = d.path := by
  match e with
  | .file n sz sf =>
      rw [cleanB, Bool.not_eq_true'] at hc
      subst hc
      simp only [noExclB, FSEntry.name, Bool.not_eq_true'] at hne
      have hsz : ¬ sz < cfg.minSize := by rw [hmin]; exact Nat.not_lt_zero sz
      rw [scanEntry_file_ok cfg n sz d depth st hne hsz]
      simp [total_addFile, path_addFile, totalBytes]
  | .dir n es =>
      rw [cleanB] at hc
      rw [noExclB, Bool.and_eq_true, Bool.not_eq_true'] at hne
      have hdeep := depthExceeded_none cfg (depth + 1) hdep
      rw [scanEntry_dir cfg n es d depth st hne.1 hdeep]
      have h1 := total_scanEntries cfg es (freshDir (childPath d.path n))
        (depth + 1) st hc hne.2 hmin hdep
      rw [total_addSubdir, path_addSubdir, h1.1]
      simp [freshDir, DirInfo.total_size, totalBytes]
  | .unreadableDir n err => simp [cleanB] at hc
  | .symlink n t => simp [cleanB] at hc
  | .badEntry n err => simp [cleanB] at hc
end

/-! ## Flat lists versus the tree (towards C8) -/

theorem files_addFile (d : DirInfo) (fi : FileInfo) :
    (addFile d fi).files = d.files ++ [fi] := by
  match d with
  | .mk p t fc dc fs sd e => simp [addFile, DirInfo.files]

theorem files_addSubdir (d : DirInfo) (n : String) (sub : DirInfo) :
    (addSubdir d n sub).files = d.files := by
  match d with
  | .mk p t fc dc fs sd e => simp [addSubdir, DirInfo.files]

theorem subdirs_addSubdir (d : DirInfo) (n : String) (sub : DirInfo)
    (hk : n ∉ keys d.subdirs) :
    (addSubdir d n sub).subdirs = scat d.subdirs (.cons n sub .nil) := by
  match d with
  | .mk p t fc dc fs sd e =>
      simp [DirInfo.subdirs] at hk
      simp [addSubdir, DirInfo.subdirs, dictInsert_fresh sd n sub hk]

theorem treeFiles_eq (d : DirInfo) : treeFiles d = d.files ++ subFiles d.subdirs := by
  match d with
  | .mk p t fc dc fs sd e => simp [treeFiles, DirInfo.files, DirInfo.subdirs]

theorem postTree_eq (d : DirInfo) : postTree d = postSubs d.subdirs := by
  match d with
  | .mk p t fc dc fs sd e => simp [postTree, DirInfo.subdirs]

theorem treeFiles_fresh (p : String) : treeFiles (freshDir p) = [] := by
  simp [freshDir, treeFiles, subFiles]

theorem postTree_fresh (p : String) : postTree (freshDir p) = [] := by
  simp [freshDir, postTree, postSubs]

theorem treeFiles_markErr (d : DirInfo) (err : ScanError) :
    treeFiles (markErr d err) = treeFiles d := by
  match d with
  | .mk p t fc dc fs sd e => simp [markErr, treeFiles]

theorem postTree_markErr (d : DirInfo) (err : ScanError) :
    postTree (markErr d err) = postTree d := by
  match d with
  | .mk p t fc dc fs sd e => simp [markErr, postTree]

theorem subdirs_markErr (d : DirInfo) (err : ScanError) :
    (markErr d err).subdirs = d.subdirs := by
  match d with
  | .mk p t fc dc fs sd e => simp [markErr, DirInfo.subdirs]

theorem files_markErr (d : DirInfo) (err : ScanError) :
    (markErr d err).files = d.files := by
  match d with
  | .mk p t fc dc fs sd e => simp [markErr, DirInfo.files]

theorem subdirs_fresh (p : String) : (freshDir p).subdirs = .nil := rfl

theorem files_fresh (p : String) : (freshDir p).files = [] := rfl

theorem perm_shuffle (a b c d : List FileInfo) :
    ((a ++ b) ++ (c ++ d)).Perm ((a ++ c) ++ (b ++ d)) := by
  rw [List.append_assoc, List.append_assoc]
  exact List.Perm.append_left a (List.perm_append_comm_assoc b c d)

/-- The shape of every directory-recording branch of `scanEntry`: `sub` is
folded into the parent and appended to `all_dirs`. -/
theorem flat_fold (d : DirInfo) (n : String) (sub : DirInfo) (st1 : ScanState)
    (st : ScanState) (S0 : SubdirList) (Δ0 Φ0 : List FileInfo)
    (hk : n ∉ keys d.subdirs)
    (hsub : sub.subdirs = S0) (hfil : sub.files = Φ0)
    (hdirs : st1.all_dirs = st.all_dirs ++ postSubs S0)
    (hfils : st1.all_files = st.all_files ++ Δ0)
    (hperm : Δ0.Perm (Φ0 ++ subFiles S0)) :
    (addSubdir d n sub).subdirs = scat d.subdirs (.cons n sub .nil) ∧
      (addSubdir d n sub).files = d.files ∧
      (recordDir st1 sub).all_dirs = st.all_dirs ++ postSubs (.cons n sub .nil) ∧
      (recordDir st1 sub).all_files = st.all_files ++ Δ0 ∧
      Δ0.Perm ([] ++ subFiles (.cons n sub .nil)) := by
  refine ⟨subdirs_addSubdir d n sub hk, files_addSubdir d n sub, ?_, ?_, ?_⟩
  · simp [recordDir, hdirs, postSubs, postTree_eq, hsub]
  · simp [recordDir, hfils]
  · simpa [subFiles, treeFiles_eq, hsub, hfil] using hperm

mutual
theorem flat_scanEntries (cfg : Config) (es : FSList) (d : DirInfo) (depth : Nat)
    (st : ScanState) (hwf : wfL es = true) (hnd : nodupStr (namesOf es) = true)
    (hdisj : ∀ k ∈ namesOf es, k ∉ keys d.subdirs) :
    ∃ S Φ Δ,
      (scanEntries cfg es d depth st).1.subdirs = scat d.subdirs S ∧
      (scanEntries cfg es d depth st).1.files = d.files ++ Φ ∧
      (scanEntries cfg es d depth st).2.all_dirs = st.all_dirs ++ postSubs S ∧
      (scanEntries cfg es d depth st).2.all_files = st.all_files ++ Δ ∧
      Δ.Perm (Φ ++ subFiles S) ∧
      (∀ k ∈ keys S, k ∈ namesOf es) := by
  match es with
  | .nil =>
      rw [scanEntries_nil]
      exact ⟨.nil, [], [], by rw [scat_nil], by simp, by simp [postSubs],
        by simp, by simp [subFiles], by simp [keys]⟩
  | .cons e rest =>
      rw [scanEntries_cons]
      rw [wfL, Bool.and_eq_true] at hwf
      rw [namesOf] at hnd hdisj
      rw [nodupStr, Bool.and_eq_true, Bool.not_eq_true'] at hnd
      have hne : e.name ∉ namesOf rest := by simpa using hnd.1
      obtain ⟨S1, Φ1, Δ1, a1, a2, a3, a4, a5, a6⟩ :=
        flat_scanEntry cfg e d depth st hwf.1 (hdisj e.name (List.mem_cons_self _ _))
      have hdisj' : ∀ k ∈ namesOf rest,
          k ∉ keys (scanEntry cfg e d depth st).1.subdirs := by
        intro k hkr hkd
        rw [a1, keys_scat] at hkd
        rcases List.mem_append.1 hkd with hc | hc
        · exact hdisj k (List.mem_cons_of_mem _ hkr) hc
        · exact hne (a6 k hc ▸ hkr)
      obtain ⟨S2, Φ2, Δ2, b1, b2, b3, b4, b5, b6⟩ :=
        flat_scanEntries cfg rest (scanEntry cfg e d depth st).1 depth
          (scanEntry cfg e d depth st).2 hwf.2 hnd.2 hdisj'
      refine ⟨scat S1 S2, Φ1 ++ Φ2, Δ1 ++ Δ2, ?_, ?_, ?_, ?_, ?_, ?_⟩
      · rw [b1, a1, scat_assoc]
      · rw [b2, a2, List.append_assoc]
      · rw [b3, a3, postSubs_scat, List.append_assoc]
      · rw [b4, a4, List.append_assoc]
      · have h5 := (a5.append b5).trans (perm_shuffle Φ1 (subFiles S1) Φ2 (subFiles S2))
        rw [subFiles_scat]
        exact h5
      · intro k hkk
        rw [keys_scat] at hkk
        rcases List.mem_append.1 hkk with hc | hc
        · exact a6 k hc ▸ List.mem_cons_self _ _
        · exact List.mem_cons_of_mem _ (b6 k hc)

theorem flat_scanEntry (cfg : Config) (e : FSEntry) (d : DirInfo) (depth : Nat)
    (st : ScanState) (hwf : wfB e = true) (hk : e.name ∉ keys d.subdirs) :
    ∃ S Φ Δ,
      (scanEntry cfg e d depth st).1.subdirs = scat d.subdirs S ∧
      (scanEntry cfg e d depth st).1.files = d.files ++ Φ ∧
      (scanEntry cfg e d depth st).2.all_dirs = st.all_dirs ++ postSubs S ∧
      (scanEntry cfg e d depth st).2.all_files = st.all_files ++ Δ ∧
      Δ.Perm (Φ ++ subFiles S) ∧
      (∀ k ∈ keys S, k = e.name) := by
  by_cases hex :
      shouldExclude cfg.excludePatterns (childPath d.path e.name) e.name = true
  · rw [scanEntry_excluded cfg e d depth st hex]
    exact ⟨.nil, [], [], by rw [scat_nil], by simp, by simp [postSubs],
      by simp, by simp [subFiles], by simp [keys]⟩
  · rw [Bool.not_eq_true] at hex
    match e with
    | .file n sz sf =>
        simp only [FSEntry.name] at hex hk ⊢
        have heq : scanEntry cfg (.file n sz sf) d depth st =
            processFile cfg (childPath d.path n) n sz sf d st := by
          simp [scanEntry, FSEntry.name, hex]
        rw [heq]
        unfold processFile
        split
        · exact ⟨.nil, [], [], by rw [scat_nil], by simp, by simp [postSubs],
            by simp, by simp [subFiles], by simp [keys]⟩
        · split
          · exact ⟨.nil, [], [], by rw [scat_nil], by simp, by simp [postSubs],
              by simp, by simp [subFiles], by simp [keys]⟩
          · refine ⟨.nil, [⟨childPath d.path n, sz, extOf n⟩],
              [⟨childPath d.path n, sz, extOf n⟩], ?_, ?_, ?_, ?_, ?_, ?_⟩
            · rw [scat_nil]; exact subdirs_addFile d _
            · exact files_addFile d _
            · simp [recordFile, postSubs]
            · simp [recordFile]
            · simp [subFiles]
            · simp [keys]
    | .badEntry n err =>
        rw [scanEntry_badEntry cfg n err d depth st hex]
        exact ⟨.nil, [], [], by rw [scat_nil], by simp, by simp [postSubs, pushErr],
          by simp [pushErr], by simp [subFiles], by simp [keys]⟩
    | .dir n es =>
        simp only [FSEntry.name] at hk ⊢
        rw [wfB, Bool.and_eq_true] at hwf
        cases hdeep : depthExceeded cfg (depth + 1) with
        | true =>
            rw [scanEntry_dir_deep cfg n es d depth st hex hdeep]
            have hf := flat_fold d n (freshDir (childPath d.path n)) st st
              .nil [] [] hk (subdirs_fresh _) (files_fresh _) (by simp [postSubs])
              (by simp) (by simp [subFiles])
            exact ⟨.cons n (freshDir (childPath d.path n)) .nil, [], [],
              hf.1, by simp [hf.2.1], hf.2.2.1, hf.2.2.2.1, hf.2.2.2.2,
              by simp [keys]⟩
        | false =>
            rw [scanEntry_dir cfg n es d depth st hex hdeep]
            obtain ⟨S0, Φ0, Δ0, a1, a2, a3, a4, a5, a6⟩ :=
              flat_scanEntries cfg es (freshDir (childPath d.path n)) (depth + 1) st
                hwf.2 hwf.1 (by simp [subdirs_fresh, keys])
            have hf := flat_fold d n _ _ st S0 Δ0 Φ0 hk (by rw [a1]; rfl)
              (by rw [a2]; rfl) a3 a4 a5
            exact ⟨.cons n _ .nil, [], Δ0, hf.1, by simp [hf.2.1], hf.2.2.1,
              hf.2.2.2.1, hf.2.2.2.2, by simp [keys]⟩
    | .unreadableDir n err =>
        simp only [FSEntry.name] at hk ⊢
        cases hdeep : depthExceeded cfg (depth + 1) with
        | true =>
            rw [scanEntry_unreadable_deep cfg n err d depth st hex hdeep]
            have hf := flat_fold d n (freshDir (childPath d.path n)) st st
              .nil [] [] hk (subdirs_fresh _) (files_fresh _) (by simp [postSubs])
              (by simp) (by simp [subFiles])
            exact ⟨.cons n (freshDir (childPath d.path n)) .nil, [], [],
              hf.1, by simp [hf.2.1], hf.2.2.1, hf.2.2.2.1, hf.2.2.2.2,
              by simp [keys]⟩
        | false =>
            rw [scanEntry_unreadable cfg n err d depth st hex hdeep]
            have hf := flat_fold d n (markErr (freshDir (childPath d.path n)) err)
              (pushErr st (entryErrMsg (childPath d.path n) err)) st .nil [] [] hk
              (by rw [subdirs_markErr]; rfl) (by rw [files_markErr]; rfl)
              (by simp [postSubs, pushErr]) (by simp [pushErr]) (by simp [subFiles])
            exact ⟨.cons n _ .nil, [], [], hf.1, by simp [hf.2.1], hf.2.2.1,
              hf.2.2.2.1, hf.2.2.2.2, by simp [keys]⟩
    | .symlink n t =>
        simp only [FSEntry.name] at hex hk ⊢
        cases hf : cfg.followSymlinks with
        | false =>
            rw [scanEntry_symlink_nofollow cfg n t d depth st hf]
            exact ⟨.nil, [], [], by rw [scat_nil], by simp, by simp [postSubs],
              by simp, by simp [subFiles], by simp [keys]⟩
        | true =>
            match t with
            | OptEntry.none =>
                rw [scanEntry_symlink_broken]
                exact ⟨.nil, [], [], by rw [scat_nil], by simp, by simp [postSubs],
                  by simp, by simp [subFiles], by simp [keys]⟩
            | OptEntry.some (.file n' sz sf) =>
                rw [scanEntry_symlink_file cfg n n' sz sf d depth st hex hf]
                unfold processFile
                split
                · exact ⟨.nil, [], [], by rw [scat_nil], by simp, by simp [postSubs],
                    by simp, by simp [subFiles], by simp [keys]⟩
                · split
                  · exact ⟨.nil, [], [], by rw [scat_nil], by simp,
                      by simp [postSubs], by simp, by simp [subFiles], by simp [keys]⟩
                  · refine ⟨.nil, [⟨childPath d.path n, sz, extOf n⟩],
                      [⟨childPath d.path n, sz, extOf n⟩], ?_, ?_, ?_, ?_, ?_, ?_⟩
                    · rw [scat_nil]; exact subdirs_addFile d _
                    · exact files_addFile d _
                    · simp [recordFile, postSubs]
                    · simp [recordFile]
                    · simp [subFiles]
                    · simp [keys]
            | OptEntry.some (.dir n' es) =>
                rw [wfB, wfB, Bool.and_eq_true] at hwf
                cases hdeep : depthExceeded cfg (depth + 1) with
                | true =>
                    rw [scanEntry_symlink_dir_deep cfg n n' es d depth st hex hf hdeep]
                    have hfo := flat_fold d n (freshDir (childPath d.path n)) st st
                      .nil [] [] hk (subdirs_fresh _) (files_fresh _)
                      (by simp [postSubs]) (by simp) (by simp [subFiles])
                    exact ⟨.cons n (freshDir (childPath d.path n)) .nil, [], [],
                      hfo.1, by simp [hfo.2.1], hfo.2.2.1, hfo.2.2.2.1, hfo.2.2.2.2,
                      by simp [keys]⟩
                | false =>
                    rw [scanEntry_symlink_dir cfg n n' es d depth st hex hf hdeep]
                    obtain ⟨S0, Φ0, Δ0, a1, a2, a3, a4, a5, a6⟩ :=
                      flat_scanEntries cfg es (freshDir (childPath d.path n))
                        (depth + 1) st hwf.2 hwf.1 (by simp [subdirs_fresh, keys])
                    have hfo := flat_fold d n _ _ st S0 Δ0 Φ0 hk (by rw [a1]; rfl)
                      (by rw [a2]; rfl) a3 a4 a5
                    exact ⟨.cons n _ .nil, [], Δ0, hfo.1, by simp [hfo.2.1],
                      hfo.2.2.1, hfo.2.2.2.1, hfo.2.2.2.2, by simp [keys]⟩
            | OptEntry.some (.unreadableDir n' err) =>
                cases hdeep : depthExceeded cfg (depth + 1) with
                | true =>
                    rw [scanEntry_symlink_unreadable_deep cfg n n' err d depth st hex hf hdeep]
                    have hfo := flat_fold d n (freshDir (childPath d.path n)) st st
                      .nil [] [] hk (subdirs_fresh _) (files_fresh _)
                      (by simp [postSubs]) (by simp) (by simp [subFiles])
                    exact ⟨.cons n (freshDir (childPath d.path n)) .nil, [], [],
                      hfo.1, by simp [hfo.2.1], hfo.2.2.1, hfo.2.2.2.1, hfo.2.2.2.2,
                      by simp [keys]⟩
                | false =>
                    rw [scanEntry_symlink_unreadable cfg n n' err d depth st hex hf hdeep]
                    have hfo := flat_fold d n (markErr (freshDir (childPath d.path n)) err)
                      (pushErr st (entryErrMsg (childPath d.path n) err)) st .nil [] [] hk
                      (by rw [subdirs_markErr]; rfl) (by rw [files_markErr]; rfl)
                      (by simp [postSubs, pushErr]) (by simp [pushErr])
                      (by simp [subFiles])
                    exact ⟨.cons n _ .nil, [], [], hfo.1, by simp [hfo.2.1],
                      hfo.2.2.1, hfo.2.2.2.1, hfo.2.2.2.2, by simp [keys]⟩
            | OptEntry.some (.symlink n' t') =>
                rw [scanEntry_symlink_symlink]
                exact ⟨.nil, [], [], by rw [scat_nil], by simp, by simp [postSubs],
                  by simp, by simp [subFiles], by simp [keys]⟩
            | OptEntry.some (.badEntry n' err) =>
                rw [scanEntry_symlink_bad]
                exact ⟨.nil, [], [], by rw [scat_nil], by simp, by simp [postSubs],
                  by simp, by simp [subFiles], by simp [keys]⟩
end

/-! ## From `scan` down to the walker -/

theorem wfB_resolve : ∀ (e e' : FSEntry), resolve e = some e' → wfB e = true →
    wfB e' = true
  | .file n sz sf, e', h, hw => by
      simp [resolve] at h; exact h ▸ hw
  | .dir n es, e', h, hw => by
      simp [resolve] at h; exact h ▸ hw
  | .unreadableDir n err, e', h, hw => by
      simp [resolve] at h; exact h ▸ hw
  | .badEntry n err, e', h, hw => by
      simp [resolve] at h; exact h ▸ hw
  | .symlink n OptEntry.none, e', h, hw => by
      simp [resolve] at h
  | .symlink n (OptEntry.some t), e', h, hw => by
      rw [show resolve (.symlink n (OptEntry.some t)) = resolve t from rfl] at h
      exact wfB_resolve t e' h (by rwa [wfB] at hw)

theorem rootListing_ok_wf (fs : FSEntry) (es : FSList) (hw : wfB fs = true)
    (h : rootListing (some fs) = .ok es) :
    nodupStr (namesOf es) = true ∧ wfL es = true := by
  simp only [rootListing] at h
  cases hr : resolve fs with
  | none => rw [hr] at h; simp at h; subst h; exact ⟨rfl, rfl⟩
  | some e' =>
      rw [hr] at h
      have hw' := wfB_resolve fs e' hr hw
      match e' with
      | .dir nm es' =>
          simp at h; subst h
          rw [wfB, Bool.and_eq_true] at hw'
          exact hw'
      | .unreadableDir nm err => simp at h
      | .file nm sz sf => simp at h; subst h; exact ⟨rfl, rfl⟩
      | .symlink nm t => simp at h; subst h; exact ⟨rfl, rfl⟩
      | .badEntry nm err => simp at h; subst h; exact ⟨rfl, rfl⟩

theorem scan_ok_elim (cfg : Config) (p : String) (root : Option FSEntry)
    (r : ScanResult) (h : DiskScanner.scan cfg p root = Except.ok r) :
    r = ⟨(scanCore cfg p root).1, (scanCore cfg p root).1.total_size,
         (scanCore cfg p root).2.files_scanned, (scanCore cfg p root).2.dirs_scanned,
         (scanCore cfg p root).2.errors, (scanCore cfg p root).2.all_files,
         (scanCore cfg p root).2.all_dirs⟩ := by
  unfold DiskScanner.scan at h
  split at h
  · exact absurd h (by simp)
  · split at h
    · exact absurd h (by simp)
    · exact (Except.ok.inj h).symm

theorem core_stInv (cfg : Config) (p : String) (root : Option FSEntry) :
    stInv (scanCore cfg p root).2 := by
  unfold scanCore
  split
  · exact ⟨rfl, rfl⟩
  · split
    · exact stInv_scanEntries cfg _ _ 0 _ ⟨rfl, rfl⟩
    · exact stInv_pushErr _ _ ⟨rfl, rfl⟩

theorem core_minOK (cfg : Config) (p : String) (root : Option FSEntry) :
    treeMinOK cfg.minSize (scanCore cfg p root).1 = true ∧
      stMinOK cfg.minSize (scanCore cfg p root).2 := by
  unfold scanCore
  split
  · exact ⟨treeMinOK_fresh _ _, by intro f hf; simp at hf⟩
  · split
    · exact minOK_scanEntries cfg _ _ 0 _ (treeMinOK_fresh _ _)
        (by intro f hf; simp at hf)
    · exact ⟨treeMinOK_markErr _ _ _ (treeMinOK_fresh _ _),
        by intro f hf; simp [pushErr] at hf⟩

theorem core_inv (cfg : Config) (p : String) (fs : FSEntry) (hw : wfB fs = true) :
    allInvB (scanCore cfg p (some fs)).1 = true := by
  unfold scanCore
  split
  · exact allInvB_fresh _
  · rename_i hdeep
    split
    · rename_i es heq
      have hwes := rootListing_ok_wf fs es hw heq
      exact (inv_scanEntries cfg es (freshDir p) 0 _ hwes.2 hwes.1
        (by simp [subdirs_fresh, keys]) (allInvB_fresh _)).1
    · exact allInvB_markErr _ _ (allInvB_fresh _)

theorem core_flat (cfg : Config) (p : String) (fs : FSEntry) (hw : wfB fs = true) :
    (scanCore cfg p (some fs)).2.all_dirs = postTree (scanCore cfg p (some fs)).1 ∧
      (scanCore cfg p (some fs)).2.all_files.Perm
        (treeFiles (scanCore cfg p (some fs)).1) := by
  unfold scanCore
  split
  · simp [postTree_fresh, treeFiles_fresh]
  · split
    · rename_i es heq
      have hwes := rootListing_ok_wf fs es hw heq
      obtain ⟨S, Φ, Δ, a1, a2, a3, a4, a5, a6⟩ :=
        flat_scanEntries cfg es (freshDir p) 0 ⟨[], [], [], 0, 0⟩ hwes.2 hwes.1
          (by simp [subdirs_fresh, keys])
      rw [subdirs_fresh] at a1
      rw [files_fresh] at a2
      constructor
      · rw [a3, postTree_eq, a1]
        rfl
      · rw [a4, treeFiles_eq, a1, a2]
        simpa using a5
    · simp [postTree_markErr, postTree_fresh, treeFiles_markErr, treeFiles_fresh,
        pushErr]

theorem core_total (p nm : String) (es : FSList) (hc : cleanL es = true)
    (hne : noExclL defaultExcludes p es = true) :
    (scanCore (mkScanner none 0 none false) p (some (.dir nm es))).1.total_size =
      totalBytesL es := by
  have h0 : depthExceeded (mkScanner none 0 none false) 0 = false := by
    simp [depthExceeded, mkScanner]
  have hl : rootListing (some (.dir nm es)) = .ok es := by simp [rootListing, resolve]
  have hpats : (mkScanner none 0 none false).excludePatterns = defaultExcludes := by
    simp [mkScanner]
  simp only [scanCore, h0, hl, Bool.false_eq_true, if_false]
  have h1 := total_scanEntries (mkScanner none 0 none false) es (freshDir p) 0
    ⟨[], [], [], 0, 0⟩ hc (by rw [hpats]; exact hne) (by simp [mkScanner]) (by simp [mkScanner])
  rw [h1.1]
  simp [freshDir, DirInfo.total_size]

/-! ## Duplicate-detector lemmas (towards C9) -/

theorem mem_insSorted (g x : DupGroup) (l : List DupGroup) :
    x ∈ insSorted g l ↔ x = g ∨ x ∈ l := by
  induction l with
  | nil => simp [insSorted]
  | cons hd t ih =>
      unfold insSorted
      split
      · simp [List.mem_cons]
      · simp [List.mem_cons, ih]
        tauto

theorem pairwise_insSorted (g : DupGroup) (l : List DupGroup)
    (h : l.Pairwise fun a b => b.wasted ≤ a.wasted) :
    (insSorted g l).Pairwise fun a b => b.wasted ≤ a.wasted := by
  induction l with
  | nil => simp [insSorted]
  | cons hd t ih =>
      rw [List.pairwise_cons] at h
      unfold insSorted
      split
      · rename_i hb
        rw [dgBefore, decide_eq_true_eq] at hb
        refine List.Pairwise.cons ?_ (List.Pairwise.cons h.1 h.2)
        intro x hx
        rcases List.mem_cons.1 hx with rfl | hx
        · exact hb
        · exact le_trans (h.1 x hx) hb
      · rename_i hb
        rw [dgBefore, decide_eq_true_eq] at hb
        refine List.Pairwise.cons ?_ (ih h.2)
        intro x hx
        rcases (mem_insSorted g x t).1 hx with rfl | hx
        · exact Nat.le_of_not_le hb
        · exact h.1 x hx

theorem pairwise_sortGroups (l : List DupGroup) :
    (sortGroups l).Pairwise fun a b => b.wasted ≤ a.wasted := by
  induction l with
  | nil => simp [sortGroups]
  | cons g t ih => exact pairwise_insSorted g (sortGroups t) ih

theorem mem_sortGroups (x : DupGroup) (l : List DupGroup) :
    x ∈ sortGroups l ↔ x ∈ l := by
  induction l with
  | nil => simp [sortGroups]
  | cons g t ih =>
      show x ∈ insSorted g (sortGroups t) ↔ _
      rw [mem_insSorted, ih]
      simp [List.mem_cons]

/-! ## Remaining small lemmas for the claim statements -/

theorem dictInsert_lookup (sd : SubdirList) (n : String) (v : DirInfo) :
    lookup (dictInsert sd n v) n = some v := by
  match sd with
  | .nil => simp [dictInsert, lookup]
  | .cons k w r =>
      by_cases hk : k = n
      · simp [dictInsert, hk, lookup]
      · simp [dictInsert, hk, lookup, dictInsert_lookup r n v]

theorem subdirs_addSubdir_dict (d : DirInfo) (n : String) (sub : DirInfo) :
    (addSubdir d n sub).subdirs = dictInsert d.subdirs n sub := by
  match d with
  | .mk p t fc dc fs sd e => simp [addSubdir, DirInfo.subdirs]

theorem dir_count_addSubdir (d : DirInfo) (n : String) (sub : DirInfo) :
    (addSubdir d n sub).dir_count = d.dir_count + 1 := by
  match d with
  | .mk p t fc dc fs sd e => simp [addSubdir, DirInfo.dir_count]

theorem depthExceeded_some (cfg : Config) (m depth : Nat)
    (h : cfg.maxDepth = some m) (hlt : m < depth) :
    depthExceeded cfg depth = true := by
  simp [depthExceeded, h, hlt]

/-! ## The claims -/

/-- **C1** (corrected).  Part 1, the invariant exactly as claimed: every
directory node produced by `DiskScanner.scan` on a realisable filesystem
(distinct entry names per directory) has `total_size` equal to the sum of
its own files' sizes plus the `total_size` of every child that was
actually recorded.  Part 2, amended: for a scan with no caller-supplied
exclusions, no depth limit and minimum size 0, `root.total_size` equals
the sum of the sizes of every file of the (error-free) tree *provided no
entry name or path matches the built-in `DEFAULT_EXCLUDES` set*, which
`DiskScanner.__init__` unconditionally merges into the pattern set; the
companion counterexample shows the unconditional claim fails. -/
theorem C1_total_size_invariant :
    (∀ (cfg : Config) (p : String) (fs : FSEntry) (r : ScanResult),
        wfB fs = true →
        DiskScanner.scan cfg p (some fs) = Except.ok r →
        allInvB r.root = true) ∧
    (∀ (p nm : String) (es : FSList) (r : ScanResult),
        cleanL es = true →
        noExclL defaultExcludes p es = true →
        DiskScanner.scan (mkScanner none 0 none false) p (some (.dir nm es)) =
          Except.ok r →
        r.root.total_size = totalBytesL es) := by
  constructor
  · intro cfg p fs r hw h
    rw [scan_ok_elim cfg p (some fs) r h]
    exact core_inv cfg p fs hw
  · intro p nm es r hc hne h
    rw [scan_ok_elim _ p _ r h]
    exact core_total p nm es hc hne

/-- C1, instantiated on the §8 scenario tree (total 500 bytes). -/
theorem C1_total_size_invariant_witness :
    allInvB (scanned exampleCfg "/r" exampleTree).root = true ∧
      (scanned exampleCfg "/r" exampleTree).root.total_size = 500 := by
  constructor
  · exact C1_total_size_invariant.1 exampleCfg "/r" exampleTree
      (scanned exampleCfg "/r" exampleTree) (by decide) (by rfl)
  · exact (C1_total_size_invariant.2 "/r" "r" exampleEntries
      (scanned exampleCfg "/r" exampleTree) (by decide) (by decide) (by rfl)).trans
      (by decide)

/-- C1's part 2 as stated (without the default-excludes proviso) is false:
a file named `.Trashes` is silently excluded even when the caller supplies
no exclusions, so the root total misses its 5 bytes. -/
theorem C1_total_size_invariant_counterexample :
    (scanned (mkScanner none 0 none false) "/r" trashTree).root.total_size ≠
        totalBytes trashTree ∧
      totalBytes trashTree = 5 ∧
      (scanned (mkScanner none 0 none false) "/r" trashTree).root.total_size = 0 :=
  ⟨by decide, rfl, rfl⟩

/-- **C2** (code bug).  `parse_size` iterates the unit dict with `"B"`
first, so `"10MB"` and `"1GB"` match the bare-`"B"` suffix and
`float("10M")` / `float("1G")` raise `ValueError` (→ `none`), contradicting
the claim, the function's own docstring (`如 '100MB'`) and the CLI help
text (`支持单位如 1KB, 10MB, 1GB`); only a bare numeric string parses. -/
theorem C2_parse_size_units :
    parse_size "10MB" = none ∧ parse_size "1GB" = none ∧
      parse_size "100" = some 100 :=
  ⟨rfl, rfl, rfl⟩

/-- **C3** (confirmed).  A non-excluded directory entry at depth
`depth + 1 > m` (root = depth 0) is still recorded: the parent gains the
fresh empty node under the entry's name, the node is appended to the flat
directory list, both directory counters increase by one, and the node has
zero files and `total_size = 0` — whether its listing would have succeeded
(`dir`) or not (`unreadableDir`, whose error branch is never reached since
the depth guard precedes `os.scandir`). -/
theorem C3_deep_entries_recorded_empty :
    ∀ (cfg : Config) (m : Nat) (d : DirInfo) (depth : Nat) (st : ScanState)
      (n : String),
      cfg.maxDepth = some m → m < depth + 1 →
      shouldExclude cfg.excludePatterns (childPath d.path n) n = false →
      (∀ es, scanEntry cfg (.dir n es) d depth st =
        (addSubdir d n (freshDir (childPath d.path n)),
         recordDir st (freshDir (childPath d.path n)))) ∧
      (∀ err, scanEntry cfg (.unreadableDir n err) d depth st =
        (addSubdir d n (freshDir (childPath d.path n)),
         recordDir st (freshDir (childPath d.path n)))) ∧
      lookup (addSubdir d n (freshDir (childPath d.path n))).subdirs n =
        some (freshDir (childPath d.path n)) ∧
      (recordDir st (freshDir (childPath d.path n))).all_dirs =
        st.all_dirs ++ [freshDir (childPath d.path n)] ∧
      (addSubdir d n (freshDir (childPath d.path n))).dir_count = d.dir_count + 1 ∧
      (recordDir st (freshDir (childPath d.path n))).dirs_scanned =
        st.dirs_scanned + 1 ∧
      (freshDir (childPath d.path n)).total_size = 0 ∧
      (freshDir (childPath d.path n)).file_count = 0 ∧
      (freshDir (childPath d.path n)).files = [] := by
  intro cfg m d depth st n hmd hlt hex
  have hdeep := depthExceeded_some cfg m (depth + 1) hmd hlt
  refine ⟨fun es => scanEntry_dir_deep cfg n es d depth st hex hdeep,
    fun err => scanEntry_unreadable_deep cfg n err d depth st hex hdeep,
    ?_, by simp [recordDir], dir_count_addSubdir d n _, by simp [recordDir],
    rfl, rfl, rfl⟩
  rw [subdirs_addSubdir_dict]
  exact dictInsert_lookup d.subdirs n _

/-- C3, instantiated: `maxDepth = 0`, entry `deep` under `/root/sub` at
depth 1. -/
theorem C3_deep_entries_recorded_empty_witness :
    scanEntry (mkScanner none 0 (some 0) false) (.dir "deep" .nil)
        (freshDir "/root/sub") 1 ⟨[], [], [], 0, 0⟩ =
      (addSubdir (freshDir "/root/sub") "deep" (freshDir "/root/sub/deep"),
       recordDir ⟨[], [], [], 0, 0⟩ (freshDir "/root/sub/deep")) ∧
    (freshDir "/root/sub/deep").total_size = 0 := by
  have h := C3_deep_entries_recorded_empty (mkScanner none 0 (some 0) false) 0
    (freshDir "/root/sub") 1 ⟨[], [], [], 0, 0⟩ "deep" rfl (by decide) (by decide)
  exact ⟨h.1 .nil, h.2.2.2.2.2.2.1⟩

/-- **C4** (confirmed).  An entry whose base name is in the pattern set, or
whose full path contains some pattern as a substring, is skipped entirely:
the loop iteration returns parent node and scan state unchanged, so the
subtree is never listed, contributes to no ancestor's totals or counts,
and none of its files reach the flat inventory. -/
theorem C4_exclusion_skips_subtree :
    ∀ (cfg : Config) (e : FSEntry) (d : DirInfo) (depth : Nat) (st : ScanState),
      (e.name ∈ cfg.excludePatterns ∨
        ∃ pat ∈ cfg.excludePatterns,
          containsChars pat.data (childPath d.path e.name).data = true) →
      scanEntry cfg e d depth st = (d, st) := by
  intro cfg e d depth st h
  apply scanEntry_excluded
  rw [shouldExclude, Bool.or_eq_true]
  rcases h with h | ⟨pat, hp, hc⟩
  · exact Or.inl (List.elem_iff.mpr h)
  · exact Or.inr (List.any_eq_true.mpr ⟨pat, hp, hc⟩)

/-- C4, instantiated: an excluded `node_modules` directory with content is
skipped without any state change. -/
theorem C4_exclusion_skips_subtree_witness :
    scanEntry (mkScanner (some ["node_modules"]) 0 none false)
        (.dir "node_modules" (.cons (.file "x.js" 7 false) .nil))
        (freshDir "/p") 0 ⟨[], [], [], 0, 0⟩ =
      (freshDir "/p", ⟨[], [], [], 0, 0⟩) :=
  C4_exclusion_skips_subtree (mkScanner (some ["node_modules"]) 0 none false)
    (.dir "node_modules" (.cons (.file "x.js" 7 false) .nil))
    (freshDir "/p") 0 ⟨[], [], [], 0, 0⟩ (by decide)

/-- **C5** (confirmed).  A file below the configured minimum size is not
recorded anywhere: the loop iteration leaves the directory node and the
scan state (file list, flat inventory, counters, totals) unchanged, so the
enclosing directory node is unaffected; and in every returned
`ScanResult`, all recorded `FileInfo`s — in the flat list and everywhere
in the tree — have `size ≥ minSize`. -/
theorem C5_min_size_filter :
    (∀ (cfg : Config) (n : String) (sz : Nat) (sf : Bool) (d : DirInfo)
        (depth : Nat) (st : ScanState), sz < cfg.minSize →
        scanEntry cfg (.file n sz sf) d depth st = (d, st)) ∧
    (∀ (cfg : Config) (p : String) (root : Option FSEntry) (r : ScanResult),
        DiskScanner.scan cfg p root = Except.ok r →
        (∀ f ∈ r.all_files, cfg.minSize ≤ f.size) ∧
          treeMinOK cfg.minSize r.root = true) := by
  constructor
  · exact fun cfg n sz sf d depth st h =>
      scanEntry_file_small cfg n sz sf d depth st h
  · intro cfg p root r h
    rw [scan_ok_elim cfg p root r h]
    exact ⟨(core_minOK cfg p root).2, (core_minOK cfg p root).1⟩

/-- C5, instantiated: a 10-byte file under `minSize = 50` is skipped, and a
scan of the example tree with `minSize = 150` records only files of at
least 150 bytes. -/
theorem C5_min_size_filter_witness :
    scanEntry (mkScanner none 50 none false) (.file "tiny" 10 false)
        (freshDir "/r") 0 ⟨[], [], [], 0, 0⟩ = (freshDir "/r", ⟨[], [], [], 0, 0⟩) ∧
    (∀ f ∈ (scanned (mkScanner none 150 none false) "/r" exampleTree).all_files,
      150 ≤ f.size) := by
  constructor
  · exact C5_min_size_filter.1 (mkScanner none 50 none false) "tiny" 10 false
      (freshDir "/r") 0 ⟨[], [], [], 0, 0⟩ (by decide)
  · exact (C5_min_size_filter.2 (mkScanner none 150 none false) "/r"
      (some exampleTree) (scanned (mkScanner none 150 none false) "/r" exampleTree)
      (by rfl)).1

/-- **C6** (corrected).  What the code actually does: an error raised while
an entry is *classified* (the loop-level `except` clauses) is caught,
logged with a human-readable message, and only that entry is skipped; the
loop then continues with the remaining siblings (second conjunct, the
loop-step equation).  But an `OSError` raised by `entry.stat` inside
`_process_file` is swallowed by a bare `pass`: the file is skipped
*silently*, with no error-log message (third conjunct) — refuting the
claim that every per-entry access failure is logged. -/
theorem C6_per_entry_error_handling :
    (∀ (cfg : Config) (n : String) (err : ScanError) (d : DirInfo) (depth : Nat)
        (st : ScanState),
        shouldExclude cfg.excludePatterns (childPath d.path n) n = false →
        scanEntry cfg (.badEntry n err) d depth st =
          (d, pushErr st (entryErrMsg (childPath d.path n) err))) ∧
    (∀ (cfg : Config) (e : FSEntry) (rest : FSList) (d : DirInfo) (depth : Nat)
        (st : ScanState),
        scanEntries cfg (.cons e rest) d depth st =
          scanEntries cfg rest (scanEntry cfg e d depth st).1 depth
            (scanEntry cfg e d depth st).2) ∧
    (∀ (cfg : Config) (n : String) (sz : Nat) (d : DirInfo) (depth : Nat)
        (st : ScanState),
        scanEntry cfg (.file n sz true) d depth st = (d, st)) :=
  ⟨scanEntry_badEntry, scanEntries_cons, scanEntry_file_statFails⟩

/-- C6, instantiated: a classification failure is logged with the
`权限被拒绝` message format. -/
theorem C6_per_entry_error_handling_witness :
    scanEntry exampleCfg (.badEntry "f" .permDenied) (freshDir "/r") 0
        ⟨[], [], [], 0, 0⟩ =
      (freshDir "/r",
       pushErr ⟨[], [], [], 0, 0⟩ (entryErrMsg "/r/f" .permDenied)) :=
  C6_per_entry_error_handling.1 exampleCfg "f" .permDenied (freshDir "/r") 0
    ⟨[], [], [], 0, 0⟩ (by decide)

/-- C6 as stated is false: scanning a tree whose only file fails to `stat`
(a per-entry access failure) produces an *empty* error log — no
human-readable message is appended — while the file is skipped. -/
theorem C6_per_entry_error_handling_counterexample :
    (scanned exampleCfg "/r" statFailTree).errors = [] ∧
      (scanned exampleCfg "/r" statFailTree).all_files = [] :=
  ⟨rfl, rfl⟩

theorem depthExceeded_zero (cfg : Config) : depthExceeded cfg 0 = false := by
  unfold depthExceeded
  split
  · rfl
  · simp

/-- **C7** (confirmed).  `DiskScanner.scan` fails (returns no result) if
and only if the root does not exist or is not a directory; both checks
precede any traversal, and for every root passing them a `ScanResult` is
returned — errors encountered during traversal are data in the result,
never an abort (the scanner embedding is a total function into `Except`).
The second conjunct exercises the extreme case: even when the root's own
listing fails, a result is returned with the failure in the error log. -/
theorem C7_scan_precondition :
    (∀ (cfg : Config) (p : String) (root : Option FSEntry),
      (DiskScanner.scan cfg p root).isOk = false ↔
        (pathExists root = false ∨ pathIsDir root = false)) ∧
    (∀ (cfg : Config) (p nm : String) (err : ScanError),
      ∃ r, DiskScanner.scan cfg p (some (.unreadableDir nm err)) = Except.ok r ∧
        r.errors = [entryErrMsg p err]) := by
  constructor
  · intro cfg p root
    unfold DiskScanner.scan
    split
    · rename_i h
      simp [Except.isOk, Except.toBool, h]
    · split
      · rename_i h1 h2
        simp [Except.isOk, Except.toBool, h2]
      · rename_i h1 h2
        simp [Except.isOk, Except.toBool, h1, h2]
  · intro cfg p nm err
    have h1 : pathExists (some (FSEntry.unreadableDir nm err)) = true := by
      simp [pathExists, resolve]
    have h2 : pathIsDir (some (FSEntry.unreadableDir nm err)) = true := by
      simp [pathIsDir, resolve]
    have h3 : rootListing (some (FSEntry.unreadableDir nm err)) = .error err := by
      simp [rootListing, resolve]
    have h4 : scanCore cfg p (some (.unreadableDir nm err)) =
        (markErr (freshDir p) err,
         pushErr ⟨[], [], [], 0, 0⟩ (entryErrMsg p err)) := by
      unfold scanCore
      rw [depthExceeded_zero]
      simp [h3]
    refine ⟨⟨(scanCore cfg p (some (.unreadableDir nm err))).1,
             (scanCore cfg p (some (.unreadableDir nm err))).1.total_size,
             (scanCore cfg p (some (.unreadableDir nm err))).2.files_scanned,
             (scanCore cfg p (some (.unreadableDir nm err))).2.dirs_scanned,
             (scanCore cfg p (some (.unreadableDir nm err))).2.errors,
             (scanCore cfg p (some (.unreadableDir nm err))).2.all_files,
             (scanCore cfg p (some (.unreadableDir nm err))).2.all_dirs⟩, ?_, ?_⟩
    · unfold DiskScanner.scan
      rw [h1, h2]
      simp
    · simp [h4, pushErr]

/-- **C8** (corrected).  The flat lists contain every `FileInfo` and every
`DirectoryNode` discovered *except the root node*: `all_dirs` is exactly
the non-root nodes of the result tree in discovery (post-)order, and
`all_files` holds precisely the files recorded in the tree (discovery
order interleaves files with subdirectory contents, so the tree view
determines it up to permutation).  The companion counterexample shows the
root itself is never appended to `all_dirs`, refuting "including the
root". -/
theorem C8_flat_lists_match_tree :
    ∀ (cfg : Config) (p : String) (fs : FSEntry) (r : ScanResult),
      wfB fs = true →
      DiskScanner.scan cfg p (some fs) = Except.ok r →
      r.all_dirs = postTree r.root ∧ r.all_files.Perm (treeFiles r.root) := by
  intro cfg p fs r hw h
  rw [scan_ok_elim cfg p (some fs) r h]
  exact core_flat cfg p fs hw

/-- C8, instantiated on the example tree. -/
theorem C8_flat_lists_match_tree_witness :
    (scanned exampleCfg "/r" exampleTree).all_dirs =
        postTree (scanned exampleCfg "/r" exampleTree).root ∧
      (scanned exampleCfg "/r" exampleTree).all_files.Perm
        (treeFiles (scanned exampleCfg "/r" exampleTree).root) :=
  C8_flat_lists_match_tree exampleCfg "/r" exampleTree
    (scanned exampleCfg "/r" exampleTree) (by decide) (by rfl)

/-- C8 as stated is false: the root node is discovered but never appended
to `all_dirs` — scanning `r/s/` yields a flat directory list holding only
`/r/s`, not the root `/r`. -/
theorem C8_flat_lists_match_tree_counterexample :
    ((scanned (mkScanner none 0 none false) "/r" oneSubTree).all_dirs.map
        DirInfo.path) = ["/r/s"] ∧
      (scanned (mkScanner none 0 none false) "/r" oneSubTree).root.path = "/r" :=
  ⟨rfl, rfl⟩

/-- **C9** (confirmed; `DuplicateFinder` is modelled from the spec, its
code being absent from `src/`).  Every emitted group has at least two
members and wasted space `size × (count − 1)`, and the output is sorted by
descending wasted space. -/
theorem C9_duplicate_groups :
    (∀ (ph fh : FileInfo → Option Nat) (m : Nat) (files : List FileInfo)
        (g : DupGroup), g ∈ findDuplicates ph fh m files →
        2 ≤ g.files.length ∧ g.wasted = g.size * (g.files.length - 1)) ∧
    (∀ (ph fh : FileInfo → Option Nat) (m : Nat) (files : List FileInfo),
        (findDuplicates ph fh m files).Pairwise fun a b => b.wasted ≤ a.wasted) := by
  constructor
  · intro ph fh m files g h
    unfold findDuplicates at h
    simp only [mem_sortGroups, List.mem_map, List.mem_flatMap] at h
    obtain ⟨p, hp, rfl⟩ := h
    obtain ⟨q, hq, hpq⟩ := hp
    simp only [survivors, List.mem_filter, decide_eq_true_eq] at hpq
    exact ⟨hpq.2, rfl⟩
  · intro ph fh m files
    unfold findDuplicates
    exact pairwise_sortGroups _

/-- C9, instantiated: two 200-byte files with equal hashes form one group
of two with wasted space 200. -/
theorem C9_duplicate_groups_witness :
    2 ≤ (⟨7, 200, [⟨"/r/b", 200, ""⟩, ⟨"/r/c", 200, ""⟩], 200⟩ : DupGroup).files.length ∧
      (⟨7, 200, [⟨"/r/b", 200, ""⟩, ⟨"/r/c", 200, ""⟩], 200⟩ : DupGroup).wasted =
        (⟨7, 200, [⟨"/r/b", 200, ""⟩, ⟨"/r/c", 200, ""⟩], 200⟩ : DupGroup).size *
          ((⟨7, 200, [⟨"/r/b", 200, ""⟩, ⟨"/r/c", 200, ""⟩], 200⟩ : DupGroup).files.length - 1) :=
  C9_duplicate_groups.1 (fun _ => some 1) (fun _ => some 7) 0
    [⟨"/r/b", 200, ""⟩, ⟨"/r/c", 200, ""⟩]
    ⟨7, 200, [⟨"/r/b", 200, ""⟩, ⟨"/r/c", 200, ""⟩], 200⟩ (by decide)

/-- **C10** (confirmed).  In every returned `ScanResult` the rolled-up
counters agree with the flat lists and the tree: `total_files` and
`total_dirs` are the lengths of `all_files`/`all_dirs` (the counters and
the list appends happen together), and `total_size` is copied from
`root.total_size`. -/
theorem C10_rolled_up_counters :
    ∀ (cfg : Config) (p : String) (root : Option FSEntry) (r : ScanResult),
      DiskScanner.scan cfg p root = Except.ok r →
      r.total_files = r.all_files.length ∧ r.total_dirs = r.all_dirs.length ∧
        r.total_size = r.root.total_size := by
  intro cfg p root r h
  rw [scan_ok_elim cfg p root r h]
  exact ⟨(core_stInv cfg p root).1, (core_stInv cfg p root).2, rfl⟩

/-- C10, instantiated on the example tree. -/
theorem C10_rolled_up_counters_witness :
    (scanned exampleCfg "/r" exampleTree).total_files =
        (scanned exampleCfg "/r" exampleTree).all_files.length ∧
      (scanned exampleCfg "/r" exampleTree).total_dirs =
        (scanned exampleCfg "/r" exampleTree).all_dirs.length ∧
      (scanned exampleCfg "/r" exampleTree).total_size =
        (scanned exampleCfg "/r" exampleTree).root.total_size :=
  C10_rolled_up_counters exampleCfg "/r" (some exampleTree)
    (scanned exampleCfg "/r" exampleTree) (by rfl)

end DiskAnalyzer
